import Mathlib

/-!
Verification development for the `savref` repository (an LLM-based Java
vulnerability-repair experiment harness).  The Python sources under `run/`
are shallowly embedded below: pure string manipulation is translated to
executable Lean functions over `String` / `List Char`, external systems
(javalang parser, LLM APIs, subprocess tools, the file system, the CodeBLEU
library) are modelled as explicit oracle parameters, and exception-raising
code is modelled with `Except` / early-return via `Except.error`.
-/

set_option maxHeartbeats 1000000

namespace Savref

/-! ## Python string primitives

`pyIsSpace` models the ASCII whitespace class stripped by `str.strip()` and
matched by the regex class `\s`. -/

def pyIsSpace (c : Char) : Bool :=
  c = ' ' || c = '\t' || c = '\n' || c = '\r' || c = '\x0b' || c = '\x0c'

/-- Python `str.strip()` on a character list: drop whitespace on both ends. -/
def pyStripL (s : List Char) : List Char :=
  ((s.dropWhile pyIsSpace).reverse.dropWhile pyIsSpace).reverse

/-- Python `str.strip()`. -/
def pyStrip (s : String) : String :=
  String.mk (pyStripL s.data)

/-- The closing fence `"```"` as a character list. -/
def tickL : List Char := "```".data

/-- The `"```java"` opening fence as a character list. -/
def javaOpL : List Char := "```java".data

/-! ## `LLMInference.extract_code_from_response` (run/inference/inference.py)

The Python code runs `re.findall(r"```java\s*([\s\S]*?)\s*```", text)` and
takes `matches[0].strip()`; failing that the same with the generic fence
pattern; failing that it returns the whole text.  For these two patterns the
first regex match starts at the first occurrence of the opener that is
followed (at or after the end of the opener) by some occurrence of `"```"`,
the match ends at the first such occurrence, and — because the `\s*` groups
only ever absorb whitespace that `.strip()` would remove anyway — the value
`matches[0].strip()` equals the text strictly between the opener and that
first closer, stripped.  `findCloser`/`findBlock` implement exactly that
scan. -/

/-- Index of the first occurrence of `"```"` in `s` (as a prefix position). -/
def findCloser : List Char → Option Nat
  | [] => none
  | c :: cs =>
    if tickL.isPrefixOf (c :: cs) then some 0
    else (findCloser cs).map (· + 1)

/-- First fenced block for opener `op`: scan for the first position where
`op` occurs and a `"```"` closer occurs at or after the end of the opener;
return the (unstripped) text in between. -/
def findBlock (op : List Char) : List Char → Option (List Char)
  | [] => none
  | c :: cs =>
    if op.isPrefixOf (c :: cs) then
      match findCloser ((c :: cs).drop op.length) with
      | some j => some (((c :: cs).drop op.length).take j)
      | none => findBlock op cs
    else findBlock op cs

/-- `LLMInference.extract_code_from_response`.  The argument is the LLM
response (`none` models Python `None`); Python's `if not response_text`
treats the empty string like `None`. -/
def extract_code_from_response (response : Option String) : Option String :=
  match response with
  | none => none
  | some t =>
    if t = "" then none
    else
      match findBlock javaOpL t.data with
      | some cap => some (pyStrip (String.mk cap))
      | none =>
        match findBlock tickL t.data with
        | some cap => some (pyStrip (String.mk cap))
        | none => some t

/-! Specification-level vocabulary for fenced blocks, independent of the
scanning recursion: positions are absolute indices into the character list. -/

/-- A closing fence occurs at index `j` of `s`. -/
def closerAt (s : List Char) (j : Nat) : Prop :=
  tickL.isPrefixOf (s.drop j)

/-- A fenced block for opener `op` opens at index `p` of `s`: the opener
occurs there and some closer occurs at or after the opener's end. -/
def opensBlockAt (op s : List Char) (p : Nat) : Prop :=
  op.isPrefixOf (s.drop p) ∧ ∃ j, closerAt s (p + op.length + j)

instance (s : List Char) (j : Nat) : Decidable (closerAt s j) := by
  unfold closerAt; infer_instance


theorem closerAt_nil (j : Nat) : ¬ closerAt ([] : List Char) j := by
  simp [closerAt, tickL]

theorem closerAt_zero (s : List Char) : closerAt s 0 ↔ tickL.isPrefixOf s := by
  simp [closerAt]

theorem closerAt_cons_succ (c : Char) (cs : List Char) (j : Nat) :
    closerAt (c :: cs) (j + 1) ↔ closerAt cs j := by
  simp [closerAt]

theorem closerAt_drop (s : List Char) (a j : Nat) :
    closerAt (s.drop a) j ↔ closerAt s (a + j) := by
  unfold closerAt
  rw [List.drop_drop]

theorem opensBlockAt_nil (op : List Char) (p : Nat) :
    ¬ opensBlockAt op ([] : List Char) p := by
  rintro ⟨-, j, hj⟩
  exact closerAt_nil _ hj

theorem opensBlockAt_cons_succ (op : List Char) (c : Char) (cs : List Char) (p : Nat) :
    opensBlockAt op (c :: cs) (p + 1) ↔ opensBlockAt op cs p := by
  unfold opensBlockAt
  rw [List.drop_succ_cons]
  constructor
  · rintro ⟨h1, j, h2⟩
    refine ⟨h1, j, ?_⟩
    have he : p + 1 + op.length + j = (p + op.length + j) + 1 := by omega
    rw [he, closerAt_cons_succ] at h2
    exact h2
  · rintro ⟨h1, j, h2⟩
    refine ⟨h1, j, ?_⟩
    have he : p + 1 + op.length + j = (p + op.length + j) + 1 := by omega
    rw [he, closerAt_cons_succ]
    exact h2

theorem opensBlockAt_zero (op s : List Char) :
    opensBlockAt op s 0 ↔ op.isPrefixOf s ∧ ∃ j, closerAt (s.drop op.length) j := by
  unfold opensBlockAt
  constructor
  · rintro ⟨h1, j, h2⟩
    refine ⟨h1, j, ?_⟩
    rw [closerAt_drop]
    rw [Nat.zero_add] at h2
    exact h2
  · rintro ⟨h1, j, h2⟩
    refine ⟨h1, j, ?_⟩
    rw [closerAt_drop] at h2
    rw [Nat.zero_add]
    exact h2

theorem findCloser_none (s : List Char) :
    findCloser s = none ↔ ∀ j, ¬ closerAt s j := by
  induction s with
  | nil =>
    simp only [findCloser]
    constructor
    · intro _ j
      exact closerAt_nil j
    · intro _
      trivial
  | cons c cs ih =>
    simp only [findCloser]
    by_cases h : tickL.isPrefixOf (c :: cs)
    · rw [if_pos h]
      constructor
      · intro hx
        exact absurd hx (by simp)
      · intro hall
        exact absurd ((closerAt_zero _).2 h) (hall 0)
    · rw [if_neg h, Option.map_eq_none']
      rw [ih]
      constructor
      · intro hall j
        cases j with
        | zero =>
          intro hc
          exact h ((closerAt_zero _).1 hc)
        | succ k =>
          intro hc
          exact hall k ((closerAt_cons_succ c cs k).1 hc)
      · intro hall k
        intro hc
        exact hall (k + 1) ((closerAt_cons_succ c cs k).2 hc)

theorem findCloser_some (s : List Char) (j : Nat) :
    findCloser s = some j ↔ closerAt s j ∧ ∀ k < j, ¬ closerAt s k := by
  induction s generalizing j with
  | nil =>
    simp only [findCloser]
    constructor
    · intro h
      exact absurd h (by simp)
    · rintro ⟨hc, -⟩
      exact absurd hc (closerAt_nil j)
  | cons c cs ih =>
    simp only [findCloser]
    by_cases h : tickL.isPrefixOf (c :: cs)
    · rw [if_pos h]
      constructor
      · intro he
        have hj : (0 : Nat) = j := Option.some_inj.1 he
        subst hj
        exact ⟨(closerAt_zero _).2 h, fun k hk => by omega⟩
      · rintro ⟨hc, hmin⟩
        cases j with
        | zero => rfl
        | succ m =>
          exact absurd ((closerAt_zero _).2 h) (hmin 0 (Nat.succ_pos m))
    · rw [if_neg h, Option.map_eq_some']
      constructor
      · rintro ⟨m, hm, hmj⟩
        subst hmj
        rw [ih] at hm
        refine ⟨(closerAt_cons_succ c cs m).2 hm.1, ?_⟩
        intro k hk
        cases k with
        | zero =>
          intro hc
          exact h ((closerAt_zero _).1 hc)
        | succ k' =>
          intro hc
          exact hm.2 k' (by omega) ((closerAt_cons_succ c cs k').1 hc)
      · rintro ⟨hc, hmin⟩
        cases j with
        | zero =>
          exact absurd ((closerAt_zero _).1 hc) h
        | succ m =>
          refine ⟨m, ?_, rfl⟩
          rw [ih]
          refine ⟨(closerAt_cons_succ c cs m).1 hc, ?_⟩
          intro k hk hck
          exact hmin (k + 1) (by omega) ((closerAt_cons_succ c cs k).2 hck)

theorem findBlock_none (op : List Char) (s : List Char) :
    findBlock op s = none ↔ ∀ p, ¬ opensBlockAt op s p := by
  induction s with
  | nil =>
    simp only [findBlock]
    constructor
    · intro _ p
      exact opensBlockAt_nil op p
    · intro _
      trivial
  | cons c cs ih =>
    simp only [findBlock]
    by_cases hpre : op.isPrefixOf (c :: cs)
    · rw [if_pos hpre]
      cases hfc : findCloser ((c :: cs).drop op.length) with
      | some j =>
        constructor
        · intro hx
          exact absurd hx (by simp)
        · intro hall
          exact absurd ((opensBlockAt_zero op _).2
            ⟨hpre, j, ((findCloser_some _ _).1 hfc).1⟩) (hall 0)
      | none =>
        have hfcn := (findCloser_none _).1 hfc
        rw [ih]
        constructor
        · intro hall p
          cases p with
          | zero =>
            intro h0
            rcases (opensBlockAt_zero op _).1 h0 with ⟨-, j, hj⟩
            exact hfcn j hj
          | succ q =>
            intro hq
            exact hall q ((opensBlockAt_cons_succ op c cs q).1 hq)
        · intro hall q hq
          exact hall (q + 1) ((opensBlockAt_cons_succ op c cs q).2 hq)
    · rw [if_neg hpre]
      rw [ih]
      constructor
      · intro hall p
        cases p with
        | zero =>
          intro h0
          exact hpre h0.1
        | succ q =>
          intro hq
          exact hall q ((opensBlockAt_cons_succ op c cs q).1 hq)
      · intro hall q hq
        exact hall (q + 1) ((opensBlockAt_cons_succ op c cs q).2 hq)

theorem closerAt_shift (c : Char) (cs : List Char) (p L j : Nat) :
    closerAt (c :: cs) (p + 1 + L + j) ↔ closerAt cs (p + L + j) := by
  have he : p + 1 + L + j = (p + L + j) + 1 := by omega
  rw [he, closerAt_cons_succ]

/-- Shifting the block-search specification across one leading character that
cannot itself start a block. -/
theorem blockSpec_shift (op : List Char) (c : Char) (cs cap : List Char)
    (h0 : ¬ opensBlockAt op (c :: cs) 0) :
    (∃ p, opensBlockAt op cs p ∧ (∀ q < p, ¬ opensBlockAt op cs q) ∧
      ∃ j, closerAt cs (p + op.length + j) ∧
        (∀ i < j, ¬ closerAt cs (p + op.length + i)) ∧
        cap = ((cs.drop p).drop op.length).take j)
    ↔ (∃ p, opensBlockAt op (c :: cs) p ∧ (∀ q < p, ¬ opensBlockAt op (c :: cs) q) ∧
      ∃ j, closerAt (c :: cs) (p + op.length + j) ∧
        (∀ i < j, ¬ closerAt (c :: cs) (p + op.length + i)) ∧
        cap = (((c :: cs).drop p).drop op.length).take j) := by
  constructor
  · rintro ⟨q, hq, hqmin, j, hj, hjmin, hcap⟩
    refine ⟨q + 1, (opensBlockAt_cons_succ op c cs q).2 hq, ?_, j, ?_, ?_, ?_⟩
    · intro r hr
      cases r with
      | zero => exact h0
      | succ r' =>
        intro hr'
        exact hqmin r' (by omega) ((opensBlockAt_cons_succ op c cs r').1 hr')
    · exact (closerAt_shift c cs q op.length j).2 hj
    · intro i hi hci
      exact hjmin i hi ((closerAt_shift c cs q op.length i).1 hci)
    · rw [List.drop_succ_cons]
      exact hcap
  · rintro ⟨p, hp, hpmin, j, hj, hjmin, hcap⟩
    cases p with
    | zero => exact absurd hp h0
    | succ q =>
      refine ⟨q, (opensBlockAt_cons_succ op c cs q).1 hp, ?_, j, ?_, ?_, ?_⟩
      · intro r hr hrq
        exact hpmin (r + 1) (by omega) ((opensBlockAt_cons_succ op c cs r).2 hrq)
      · exact (closerAt_shift c cs q op.length j).1 hj
      · intro i hi hci
        exact hjmin i hi ((closerAt_shift c cs q op.length i).2 hci)
      · rw [List.drop_succ_cons] at hcap
        exact hcap

theorem findBlock_some (op : List Char) (s : List Char) (cap : List Char) :
    findBlock op s = some cap ↔
      ∃ p, opensBlockAt op s p ∧ (∀ q < p, ¬ opensBlockAt op s q) ∧
        ∃ j, closerAt s (p + op.length + j) ∧
          (∀ i < j, ¬ closerAt s (p + op.length + i)) ∧
          cap = ((s.drop p).drop op.length).take j := by
  induction s generalizing cap with
  | nil =>
    simp only [findBlock]
    constructor
    · intro h
      exact absurd h (by simp)
    · rintro ⟨p, hp, -⟩
      exact absurd hp (opensBlockAt_nil op p)
  | cons c cs ih =>
    simp only [findBlock]
    by_cases hpre : op.isPrefixOf (c :: cs)
    · rw [if_pos hpre]
      cases hfc : findCloser ((c :: cs).drop op.length) with
      | some j =>
        have hj := (findCloser_some _ _).1 hfc
        constructor
        · intro hc
          have hcap := Option.some_inj.1 hc
          refine ⟨0, (opensBlockAt_zero op _).2 ⟨hpre, j, hj.1⟩, by omega, j, ?_, ?_, ?_⟩
          · have hgoal := (closerAt_drop (c :: cs) op.length j).1 hj.1
            rw [Nat.zero_add]
            exact hgoal
          · intro i hi hci
            apply hj.2 i hi
            rw [closerAt_drop]
            rw [Nat.zero_add] at hci
            exact hci
          · exact hcap.symm
        · rintro ⟨p, hp, hpmin, j', hj', hj'min, hcap⟩
          have hp0 : p = 0 := by
            by_contra hne
            exact hpmin 0 (by omega) ((opensBlockAt_zero op _).2 ⟨hpre, j, hj.1⟩)
          subst hp0
          have hj'j : j' = j := by
            rcases Nat.lt_trichotomy j' j with hlt | heq | hgt
            · exfalso
              apply hj.2 j' hlt
              rw [closerAt_drop]
              rw [Nat.zero_add] at hj'
              exact hj'
            · exact heq
            · exfalso
              apply hj'min j hgt
              have := (closerAt_drop (c :: cs) op.length j).1 hj.1
              rw [Nat.zero_add]
              exact this
          subst hj'j
          rw [hcap]
          rfl
      | none =>
        have hfcn := (findCloser_none _).1 hfc
        have h0 : ¬ opensBlockAt op (c :: cs) 0 := by
          intro h0
          rcases (opensBlockAt_zero op _).1 h0 with ⟨-, j, hj⟩
          exact hfcn j hj
        rw [ih]
        exact blockSpec_shift op c cs cap h0
    · rw [if_neg hpre]
      have h0 : ¬ opensBlockAt op (c :: cs) 0 := by
        intro h0
        exact hpre h0.1
      rw [ih]
      exact blockSpec_shift op c cs cap h0

/-- Any `"```java"` block opening is also a generic `"```"` block opening:
the generic opener is a prefix of the java opener, and a closer lying at
least 7 characters past the opening also lies at least 3 characters past
it. -/
theorem opens_tick_of_opens_java (s : List Char) (p : Nat) :
    opensBlockAt javaOpL s p → opensBlockAt tickL s p := by
  rintro ⟨h1, j, h2⟩
  constructor
  · rw [List.isPrefixOf_iff_prefix] at h1 ⊢
    have htj : tickL <+: javaOpL := ⟨"java".data, by decide⟩
    exact htj.trans h1
  · refine ⟨4 + j, ?_⟩
    have h3 : tickL.length = 3 := rfl
    have h7 : javaOpL.length = 7 := rfl
    have he : p + tickL.length + (4 + j) = p + javaOpL.length + j := by
      rw [h3, h7]; omega
    rw [he]
    exact h2

/-- C5: for every non-empty LLM response text, `extract_code_from_response`
returns the stripped content of the first ```java fenced block when one
exists (first opener position with a closer, ending at the first closer);
otherwise the stripped content of the first generic ``` fenced block when
one exists; otherwise the entire response text unchanged; and it returns
`none` exactly when the response is `None` or empty. -/
theorem C5_extract_code_from_response (t : String) (ht : t ≠ "") :
    extract_code_from_response none = none ∧
    extract_code_from_response (some "") = none ∧
    (extract_code_from_response (some t)).isSome ∧
    (∀ p j, opensBlockAt javaOpL t.data p →
      (∀ q < p, ¬ opensBlockAt javaOpL t.data q) →
      closerAt t.data (p + javaOpL.length + j) →
      (∀ i < j, ¬ closerAt t.data (p + javaOpL.length + i)) →
      extract_code_from_response (some t) =
        some (pyStrip (String.mk (((t.data.drop p).drop javaOpL.length).take j)))) ∧
    ((∀ p, ¬ opensBlockAt javaOpL t.data p) →
      ∀ p j, opensBlockAt tickL t.data p →
        (∀ q < p, ¬ opensBlockAt tickL t.data q) →
        closerAt t.data (p + tickL.length + j) →
        (∀ i < j, ¬ closerAt t.data (p + tickL.length + i)) →
        extract_code_from_response (some t) =
          some (pyStrip (String.mk (((t.data.drop p).drop tickL.length).take j)))) ∧
    ((∀ p, ¬ opensBlockAt tickL t.data p) →
      extract_code_from_response (some t) = some t) := by
  refine ⟨rfl, rfl, ?_, ?_, ?_, ?_⟩
  · simp only [extract_code_from_response, if_neg ht]
    cases findBlock javaOpL t.data with
    | some cap => simp
    | none =>
      cases findBlock tickL t.data with
      | some cap => simp
      | none => simp
  · intro p j hp hpmin hj hjmin
    have hfb : findBlock javaOpL t.data =
        some (((t.data.drop p).drop javaOpL.length).take j) :=
      (findBlock_some _ _ _).2 ⟨p, hp, hpmin, j, hj, hjmin, rfl⟩
    simp only [extract_code_from_response, if_neg ht, hfb]
  · intro hnojava p j hp hpmin hj hjmin
    have hfbj : findBlock javaOpL t.data = none := (findBlock_none _ _).2 hnojava
    have hfb : findBlock tickL t.data =
        some (((t.data.drop p).drop tickL.length).take j) :=
      (findBlock_some _ _ _).2 ⟨p, hp, hpmin, j, hj, hjmin, rfl⟩
    simp only [extract_code_from_response, if_neg ht, hfbj, hfb]
  · intro hnotick
    have hnojava : ∀ p, ¬ opensBlockAt javaOpL t.data p := by
      intro p hp
      exact hnotick p (opens_tick_of_opens_java _ p hp)
    have hfbj : findBlock javaOpL t.data = none := (findBlock_none _ _).2 hnojava
    have hfbt : findBlock tickL t.data = none := (findBlock_none _ _).2 hnotick
    simp only [extract_code_from_response, if_neg ht, hfbj, hfbt]

/-- Witness for C5 at the concrete response `"x"`. -/
theorem C5_witness : ("x" : String) ≠ "" ∧
    (extract_code_from_response none = none ∧
    extract_code_from_response (some "") = none ∧
    (extract_code_from_response (some "x")).isSome ∧
    (∀ p j, opensBlockAt javaOpL ("x" : String).data p →
      (∀ q < p, ¬ opensBlockAt javaOpL ("x" : String).data q) →
      closerAt ("x" : String).data (p + javaOpL.length + j) →
      (∀ i < j, ¬ closerAt ("x" : String).data (p + javaOpL.length + i)) →
      extract_code_from_response (some "x") =
        some (pyStrip (String.mk (((("x" : String).data.drop p).drop javaOpL.length).take j)))) ∧
    ((∀ p, ¬ opensBlockAt javaOpL ("x" : String).data p) →
      ∀ p j, opensBlockAt tickL ("x" : String).data p →
        (∀ q < p, ¬ opensBlockAt tickL ("x" : String).data q) →
        closerAt ("x" : String).data (p + tickL.length + j) →
        (∀ i < j, ¬ closerAt ("x" : String).data (p + tickL.length + i)) →
        extract_code_from_response (some "x") =
          some (pyStrip (String.mk (((("x" : String).data.drop p).drop tickL.length).take j)))) ∧
    ((∀ p, ¬ opensBlockAt tickL ("x" : String).data p) →
      extract_code_from_response (some "x") = some "x")) :=
  ⟨by decide, C5_extract_code_from_response "x" (by decide)⟩

/-! ## `run/utils/file_utils.py`: `find_method_in_file` / `replace_method_in_file`

The file content is an `Option String` (`none` models an unreadable file,
i.e. `read_file` returning `None`).  The two external matchers are oracle
parameters: `ParseOutcome` is the outcome of the `javalang` parsing attempt
for the requested method name, and `lineMatches` is the compiled method
regex's `re.search` applied to a single line. -/

/-- Python `str.splitlines()` line-break characters (besides `"\r\n"`). -/
def pyIsLineBreak (c : Char) : Bool :=
  c = '\n' || c = '\r' || c = '\x0b' || c = '\x0c' ||
  c = '\x1c' || c = '\x1d' || c = '\x1e' || c = '\x85' ||
  c = ' ' || c = ' '

/-- Worker for `str.splitlines()`: `acc` is the current (reversed) line. -/
def pySplitlinesAux : List Char → List Char → List (List Char)
  | [], acc => if acc.isEmpty then [] else [acc.reverse]
  | '\r' :: '\n' :: rest, acc => acc.reverse :: pySplitlinesAux rest []
  | c :: rest, acc =>
    if pyIsLineBreak c then acc.reverse :: pySplitlinesAux rest []
    else pySplitlinesAux rest (c :: acc)

/-- Python `str.splitlines()` (no trailing empty line for a trailing
newline, `""` gives `[]`). -/
def pySplitlines (s : String) : List String :=
  (pySplitlinesAux s.data []).map String.mk

/-- `line.count(c)` for a single character. -/
def countChar (c : Char) (s : String) : Nat := s.data.count c

/-- `line.count('{') - line.count('}')`, the per-line brace balance. -/
def braceDelta (l : String) : Int :=
  (countChar '{' l : Int) - (countChar '}' l : Int)

/-- The brace-counting loop of `find_method_in_file`:
`for i in range(start_pos-1, len(lines)): brace_count += ...;
 if brace_count <= 0 and i > start_pos-1: end_pos = i+1; break`
with `end_pos` defaulting to `start_pos` when the loop never breaks. -/
def findEndAux (startPos : Nat) : List String → Nat → Int → Nat
  | [], _, _ => startPos
  | l :: rest, i, cnt =>
    let cnt' := cnt + braceDelta l
    if cnt' ≤ 0 ∧ i > startPos - 1 then i + 1
    else findEndAux startPos rest (i + 1) cnt'

/-- 1-based end line of the method starting at 1-based line `startPos`. -/
def findEnd (lines : List String) (startPos : Nat) : Nat :=
  findEndAux startPos (lines.drop (startPos - 1)) (startPos - 1) 0

/-- `'\n'.join(lines[s-1:e])` (1-based inclusive line range). -/
def joinRange (lines : List String) (s e : Nat) : String :=
  String.intercalate "\n" ((lines.drop (s - 1)).take (e - (s - 1)))

/-- Outcome of the `javalang` parsing attempt inside `find_method_in_file`:
the parse raised, or found no method of the requested name, or found one
whose `.position` line is `pos` (`none` when the node has no position). -/
inductive ParseOutcome
  | parseError
  | noMethod
  | methodAt (pos : Option Nat)
deriving DecidableEq

/-- `find_method_in_file(file_path, method_name)`.  Returns the
`(start_line, end_line, method_code)` triple, or `none` for Python's
`(None, None, None)`. -/
def find_method_in_file (content : Option String) (parse : ParseOutcome)
    (lineMatches : String → Bool) : Option (Nat × Nat × String) :=
  match content with
  | none => none
  | some fc =>
    if fc = "" then none
    else
      let lines := pySplitlines fc
      let viaRegex : Option (Nat × Nat × String) :=
        match lines.findIdx? lineMatches with
        | some i => some (i + 1, findEnd lines (i + 1), joinRange lines (i + 1) (findEnd lines (i + 1)))
        | none => none
      match parse with
      | .methodAt (some p) =>
        if p = 0 then viaRegex
        else some (p, findEnd lines p, joinRange lines p (findEnd lines p))
      | _ => viaRegex

/-- `replace_method_in_file(file_path, method_name, new_method_code)`.
Returns the line list written out
(`lines[:start-1] + new_method_code.splitlines() + lines[end:]`), or
`none` when the function returns `False` without writing. -/
def replace_method_in_file (content : Option String) (parse : ParseOutcome)
    (lineMatches : String → Bool) (newMethodCode : String) : Option (List String) :=
  match find_method_in_file content parse lineMatches with
  | none => none
  | some (s, e, _) =>
    match content with
    | none => none
    | some fc =>
      if fc = "" then none
      else
        let lines := pySplitlines fc
        some (lines.take (s - 1) ++ pySplitlines newMethodCode ++ lines.drop e)

theorem findEndAux_ge (startPos : Nat) (rem : List String) (i : Nat) (cnt : Int)
    (h : startPos ≤ i + 1) : startPos ≤ findEndAux startPos rem i cnt := by
  induction rem generalizing i cnt with
  | nil => simp [findEndAux]
  | cons l rest ih =>
    simp only [findEndAux]
    split
    · omega
    · exact ih (i + 1) _ (by omega)

theorem findEnd_ge (lines : List String) (s : Nat) (hs : 1 ≤ s) :
    s ≤ findEnd lines s := by
  unfold findEnd
  exact findEndAux_ge s _ (s - 1) 0 (by omega)

/-- Shape of every successful `find_method_in_file` result: a 1-based start
line, the brace-counting end line, and the join of exactly those lines. -/
theorem find_method_some_shape (fc : String) (parse : ParseOutcome)
    (lm : String → Bool) (s e : Nat) (code : String)
    (h : find_method_in_file (some fc) parse lm = some (s, e, code)) :
    1 ≤ s ∧ e = findEnd (pySplitlines fc) s ∧ code = joinRange (pySplitlines fc) s e := by
  by_cases hfc : fc = ""
  · rw [hfc] at h
    simp [find_method_in_file] at h
  · simp only [find_method_in_file, if_neg hfc] at h
    cases parse with
    | methodAt pos =>
      cases pos with
      | some p =>
        dsimp only at h
        by_cases hp : p = 0
        · rw [if_pos hp] at h
          cases hidx : (pySplitlines fc).findIdx? lm with
          | some i =>
            rw [hidx] at h
            injection h with h'
            injection h' with h1 h2
            injection h2 with h2 h3
            subst h1; subst h2; subst h3
            exact ⟨by omega, rfl, rfl⟩
          | none => rw [hidx] at h; cases h
        · rw [if_neg hp] at h
          injection h with h'
          injection h' with h1 h2
          injection h2 with h2 h3
          subst h1; subst h2; subst h3
          exact ⟨by omega, rfl, rfl⟩
      | none =>
        dsimp only at h
        cases hidx : (pySplitlines fc).findIdx? lm with
        | some i =>
          rw [hidx] at h
          injection h with h'
          injection h' with h1 h2
          injection h2 with h2 h3
          subst h1; subst h2; subst h3
          exact ⟨by omega, rfl, rfl⟩
        | none => rw [hidx] at h; cases h
    | parseError =>
      dsimp only at h
      cases hidx : (pySplitlines fc).findIdx? lm with
      | some i =>
        rw [hidx] at h
        injection h with h'
        injection h' with h1 h2
        injection h2 with h2 h3
        subst h1; subst h2; subst h3
        exact ⟨by omega, rfl, rfl⟩
      | none => rw [hidx] at h; cases h
    | noMethod =>
      dsimp only at h
      cases hidx : (pySplitlines fc).findIdx? lm with
      | some i =>
        rw [hidx] at h
        injection h with h'
        injection h' with h1 h2
        injection h2 with h2 h3
        subst h1; subst h2; subst h3
        exact ⟨by omega, rfl, rfl⟩
      | none => rw [hidx] at h; cases h

/-- C6: `find_method_in_file` first tries the `javalang` parse; when the
parse fails or finds no method of the requested name it falls back to the
regex scan over the file's lines; on success it returns a 1-based start
line, the brace-counting end line, and the join of exactly those lines;
it returns `(None, None, None)` when the file cannot be read or neither
strategy matches. -/
theorem C6_find_method_in_file (fc : String) (parse : ParseOutcome)
    (lm : String → Bool) (hfc : fc ≠ "") :
    (find_method_in_file none parse lm = none) ∧
    (find_method_in_file (some "") parse lm = none) ∧
    (∀ s e code, find_method_in_file (some fc) parse lm = some (s, e, code) →
      1 ≤ s ∧ s ≤ e ∧ e = findEnd (pySplitlines fc) s ∧
      code = joinRange (pySplitlines fc) s e) ∧
    (∀ p, p ≠ 0 → parse = ParseOutcome.methodAt (some p) →
      find_method_in_file (some fc) parse lm =
        some (p, findEnd (pySplitlines fc) p,
          joinRange (pySplitlines fc) p (findEnd (pySplitlines fc) p))) ∧
    ((parse = ParseOutcome.parseError ∨ parse = ParseOutcome.noMethod) →
      find_method_in_file (some fc) parse lm =
        (match (pySplitlines fc).findIdx? lm with
         | some i => some (i + 1, findEnd (pySplitlines fc) (i + 1),
             joinRange (pySplitlines fc) (i + 1) (findEnd (pySplitlines fc) (i + 1)))
         | none => none)) := by
  refine ⟨rfl, rfl, ?_, ?_, ?_⟩
  · intro s e code h
    rcases find_method_some_shape fc parse lm s e code h with ⟨h1, h2, h3⟩
    exact ⟨h1, h2 ▸ findEnd_ge _ s h1, h2, h3⟩
  · intro p hp hparse
    subst hparse
    simp only [find_method_in_file, if_neg hfc]
    rw [if_neg hp]
  · intro hparse
    rcases hparse with h | h <;> subst h <;>
      simp only [find_method_in_file, if_neg hfc]

/-- Witness for C6 at a concrete two-line Java method found by the regex
fallback after a parse error. -/
theorem C6_witness : ("a() \x7b\n\x7d\ntail" : String) ≠ "" ∧
    find_method_in_file (some "a() \x7b\n\x7d\ntail") ParseOutcome.parseError
        (fun l => l = "a() \x7b") =
      (match (pySplitlines "a() \x7b\n\x7d\ntail").findIdx? (fun l => l = "a() \x7b") with
       | some i => some (i + 1, findEnd (pySplitlines "a() \x7b\n\x7d\ntail") (i + 1),
           joinRange (pySplitlines "a() \x7b\n\x7d\ntail") (i + 1)
             (findEnd (pySplitlines "a() \x7b\n\x7d\ntail") (i + 1)))
       | none => none) :=
  ⟨by decide,
   (C6_find_method_in_file "a() \x7b\n\x7d\ntail" ParseOutcome.parseError
      (fun l => l = "a() \x7b") (by decide)).2.2.2.2 (Or.inl rfl)⟩

/-- C10: whenever the method is found at lines `[s, e]`,
`replace_method_in_file` writes output whose lines are exactly the original
lines before `s`, then the lines of the new method code, then the original
lines after `e`; every line outside the replaced range is unchanged; and it
returns `False`, writing nothing, when the method is not found or the file
cannot be read. -/
theorem C10_replace_method_in_file (fc : String) (parse : ParseOutcome)
    (lm : String → Bool) (newCode : String) (s e : Nat) (code : String)
    (h : find_method_in_file (some fc) parse lm = some (s, e, code)) :
    (∃ newLines,
      replace_method_in_file (some fc) parse lm newCode = some newLines ∧
      newLines = (pySplitlines fc).take (s - 1) ++ pySplitlines newCode ++
        (pySplitlines fc).drop e ∧
      (s - 1 ≤ (pySplitlines fc).length →
        newLines.take (s - 1) = (pySplitlines fc).take (s - 1) ∧
        newLines.drop ((s - 1) + (pySplitlines newCode).length) =
          (pySplitlines fc).drop e ∧
        (newLines.drop (s - 1)).take ((pySplitlines newCode).length) =
          pySplitlines newCode)) ∧
    (∀ content' parse' lm',
      find_method_in_file content' parse' lm' = none →
      replace_method_in_file content' parse' lm' newCode = none) ∧
    (∀ parse' lm',
      replace_method_in_file (none : Option String) parse' lm' newCode = none) := by
  have hfc : fc ≠ "" := by
    intro hemp
    rw [hemp] at h
    simp [find_method_in_file] at h
  refine ⟨?_, ?_, ?_⟩
  · refine ⟨(pySplitlines fc).take (s - 1) ++ pySplitlines newCode ++
      (pySplitlines fc).drop e, ?_, rfl, ?_⟩
    · simp only [replace_method_in_file, h, if_neg hfc]
    · intro hlen
      set A := (pySplitlines fc).take (s - 1) with hA
      set nc := pySplitlines newCode with hnc
      set rest := (pySplitlines fc).drop e with hrest
      have hlentake : A.length = s - 1 := by
        rw [hA, List.length_take]
        omega
      refine ⟨?_, ?_, ?_⟩
      · rw [List.append_assoc, ← hlentake, List.take_left]
      · have hlen2 : (A ++ nc).length = (s - 1) + nc.length := by
          rw [List.length_append, hlentake]
        rw [← hlen2, List.drop_left]
      · rw [List.append_assoc, ← hlentake, List.drop_left, List.take_left]
  · intro content' parse' lm' hnone
    simp only [replace_method_in_file, hnone]
  · intro parse' lm'
    cases hres : find_method_in_file (none : Option String) parse' lm' with
    | none => simp only [replace_method_in_file, hres]
    | some v =>
      exfalso
      simp [find_method_in_file] at hres

/-- Witness for C10 at a concrete file and replacement. -/
theorem C10_witness :
    find_method_in_file (some "a() \x7b\n\x7d\ntail") ParseOutcome.parseError
        (fun l => l = "a() \x7b") = some (1, 2, "a() \x7b\n\x7d") ∧
    (∃ newLines,
      replace_method_in_file (some "a() \x7b\n\x7d\ntail") ParseOutcome.parseError
          (fun l => l = "a() \x7b") "b() \x7b\n y;\n\x7d" = some newLines ∧
      newLines = (pySplitlines "a() \x7b\n\x7d\ntail").take (1 - 1) ++
        pySplitlines "b() \x7b\n y;\n\x7d" ++ (pySplitlines "a() \x7b\n\x7d\ntail").drop 2 ∧
      (1 - 1 ≤ (pySplitlines "a() \x7b\n\x7d\ntail").length →
        newLines.take (1 - 1) = (pySplitlines "a() \x7b\n\x7d\ntail").take (1 - 1) ∧
        newLines.drop ((1 - 1) + (pySplitlines "b() \x7b\n y;\n\x7d").length) =
          (pySplitlines "a() \x7b\n\x7d\ntail").drop 2 ∧
        (newLines.drop (1 - 1)).take ((pySplitlines "b() \x7b\n y;\n\x7d").length) =
          pySplitlines "b() \x7b\n y;\n\x7d")) :=
  ⟨by decide,
   (C10_replace_method_in_file "a() \x7b\n\x7d\ntail" ParseOutcome.parseError
      (fun l => l = "a() \x7b") "b() \x7b\n y;\n\x7d" 1 2 "a() \x7b\n\x7d" (by decide)).1⟩

/-! ## `run/utils/evaluation.py`: `calculate_code_bleu`

The external CodeBLEU library is an oracle: `lib = none` models a failing
`from codebleu import calc_codebleu` (ImportError), and the imported
function itself is a map from (references, predictions, lang, weights) to
either a raised exception or a result record carrying the `'codebleu'`
field (the only field the wrapper reads). -/

/-- An abstract Python exception. -/
inductive PyExc
  | attributeError
  | nameError
  | ioError
  | other
deriving DecidableEq

/-- The result record of `calc_codebleu`, restricted to the field read. -/
structure CodeBleuResult where
  codebleu : ℚ
deriving DecidableEq

/-- Type of the imported `calc_codebleu` function. -/
def CalcCodeBleuFn : Type :=
  List String → List String → String → (ℚ × ℚ × ℚ × ℚ) → Except PyExc CodeBleuResult

/-- `calculate_code_bleu(generated_code, reference_code)`. -/
def calculate_code_bleu (lib : Option CalcCodeBleuFn)
    (generated_code reference_code : String) : Option ℚ :=
  match lib with
  | none => none
  | some calc_codebleu =>
    match calc_codebleu [reference_code] [generated_code] "java"
        (1/4, 1/4, 1/4, 1/4) with
    | .ok r => some r.codebleu
    | .error _ => none

/-- C4: `calculate_code_bleu` delegates entirely to `calc_codebleu`, called
with the reference code as the single reference, the generated code as the
single prediction, language `"java"` and weights `(0.25, 0.25, 0.25, 0.25)`;
it returns that call's `'codebleu'` field, and returns `None` exactly when
the library cannot be imported or the computation raises. -/
theorem C4_calculate_code_bleu (lib : Option CalcCodeBleuFn)
    (gen ref : String) :
    (∀ f, lib = some f →
      ∀ r, f [ref] [gen] "java" (1/4, 1/4, 1/4, 1/4) = .ok r →
        calculate_code_bleu lib gen ref = some r.codebleu) ∧
    (calculate_code_bleu lib gen ref = none ↔
      (lib = none ∨ ∃ f e, lib = some f ∧
        f [ref] [gen] "java" (1/4, 1/4, 1/4, 1/4) = .error e)) := by
  constructor
  · intro f hf r hr
    simp only [calculate_code_bleu, hf, hr]
  · cases lib with
    | none => simp [calculate_code_bleu]
    | some f =>
      simp only [calculate_code_bleu]
      cases hres : f [ref] [gen] "java" (1/4, 1/4, 1/4, 1/4) with
      | ok r =>
        simp only [reduceCtorEq, false_iff, not_or]
        refine ⟨by simp, ?_⟩
        rintro ⟨f', e, hf', he⟩
        rw [Option.some_inj] at hf'
        subst hf'
        rw [hres] at he
        cases he
      | error e =>
        simp only [true_iff]
        exact Or.inr ⟨f, e, rfl, hres⟩

/-- Witness for C4 with a concrete library function returning score 3/4. -/
theorem C4_witness :
    (some (fun _ _ _ _ => Except.ok ⟨3/4⟩ : CalcCodeBleuFn) =
      some (fun _ _ _ _ => Except.ok ⟨3/4⟩ : CalcCodeBleuFn)) ∧
    calculate_code_bleu (some (fun _ _ _ _ => Except.ok ⟨3/4⟩ : CalcCodeBleuFn))
      "int x;" "int y;" = some (3/4 : ℚ) :=
  ⟨rfl,
   (C4_calculate_code_bleu (some (fun _ _ _ _ => Except.ok ⟨3/4⟩)) "int x;" "int y;").1
     (fun _ _ _ _ => Except.ok ⟨3/4⟩) rfl ⟨3/4⟩ rfl⟩

/-! ## `run/prompting/prompt_builder.py`: `PromptBuilder`

The user template is a loaded text with `{vulnerable_method}`, `{cwe_id}`,
`{description}` and `{graph_info}` placeholders; `str.format` on such a
text is concatenation of its literal segments with the substituted field
values, so the template is embedded as a segment list.  `vuln_info.get(k, '')`
is modelled by `Option.getD ""` on the relevant fields. -/

/-- One segment of the user prompt template: a literal piece or one of the
four placeholders substituted by `build_prompt`. -/
inductive TemplateSeg
  | lit (s : String)
  | vulnerableMethod
  | cweId
  | description
  | graphInfo
deriving DecidableEq

/-- The relevant fields of the `vuln_info` dictionary (a missing key is
`none`). -/
structure PromptVulnInfo where
  vulnerable_method : Option String
  cwe_id : Option String
  description : Option String
deriving DecidableEq

/-- `USE_GRAPH_INFO` from `run/config.py`. -/
def USE_GRAPH_INFO : Bool := true

/-- Python truthiness of an optional string (`None` and `""` are falsy). -/
def pyTruthy (o : Option String) : Bool :=
  match o with
  | none => false
  | some s => s != ""

/-- The hard-coded system prompt used when `model_size == "1b"`. -/
def onebSystemPrompt : String :=
  "당신은 취약점 수정 전문가입니다. 다음 Java 코드의 보안 취약점을 수정해주세요."

/-- `user_prompt.format(...)`: concatenate the template segments with the
placeholder values substituted. -/
def renderUserTemplate (tpl : List TemplateSeg) (vm cwe desc gi : String) : String :=
  String.join (tpl.map fun seg =>
    match seg with
    | .lit s => s
    | .vulnerableMethod => vm
    | .cweId => cwe
    | .description => desc
    | .graphInfo => gi)

/-- `PromptBuilder.build_prompt`: returns the `(system, user)` pair. -/
def build_prompt (systemTemplate : String) (userTemplate : List TemplateSeg)
    (vuln_info : PromptVulnInfo) (graph_info_text : Option String)
    (model_size : String) : String × String :=
  let system_prompt := if model_size = "1b" then onebSystemPrompt else systemTemplate
  let graph_info :=
    if USE_GRAPH_INFO && pyTruthy graph_info_text then graph_info_text.getD ""
    else ""
  let user_prompt := renderUserTemplate userTemplate
    (vuln_info.vulnerable_method.getD "") (vuln_info.cwe_id.getD "")
    (vuln_info.description.getD "") graph_info
  (system_prompt, user_prompt)

/-- A Chat Completion API message. -/
structure ChatMessage where
  role : String
  content : String
deriving DecidableEq

/-- `PromptBuilder.build_chat_completion_messages`. -/
def build_chat_completion_messages (systemTemplate : String)
    (userTemplate : List TemplateSeg) (vuln_info : PromptVulnInfo)
    (graph_info_text : Option String) (model_size : String) : List ChatMessage :=
  let prompt := build_prompt systemTemplate userTemplate vuln_info graph_info_text model_size
  [⟨"system", prompt.1⟩, ⟨"user", prompt.2⟩]

/-- C7: `build_chat_completion_messages` returns exactly two messages, a
system one then a user one; the user content is the user template with its
placeholders replaced by the corresponding `vuln_info` fields (missing
fields becoming `""`) and by the supplied graph-info text, or by `""` when
no graph text is given. -/
theorem C7_build_chat_completion_messages (sysT : String)
    (userT : List TemplateSeg) (vi : PromptVulnInfo) (git : Option String)
    (ms : String) :
    (build_chat_completion_messages sysT userT vi git ms).length = 2 ∧
    (build_chat_completion_messages sysT userT vi git ms).map ChatMessage.role =
      ["system", "user"] ∧
    (∀ g, git = some g → g ≠ "" →
      (build_chat_completion_messages sysT userT vi git ms).map ChatMessage.content =
        [(build_prompt sysT userT vi git ms).1,
         renderUserTemplate userT (vi.vulnerable_method.getD "")
           (vi.cwe_id.getD "") (vi.description.getD "") g]) ∧
    ((git = none ∨ git = some "") →
      (build_chat_completion_messages sysT userT vi git ms).map ChatMessage.content =
        [(build_prompt sysT userT vi git ms).1,
         renderUserTemplate userT (vi.vulnerable_method.getD "")
           (vi.cwe_id.getD "") (vi.description.getD "") ""]) := by
  refine ⟨rfl, rfl, ?_, ?_⟩
  · intro g hg hne
    subst hg
    simp only [build_chat_completion_messages, build_prompt, List.map_cons,
      List.map_nil, USE_GRAPH_INFO, pyTruthy, Bool.true_and]
    have : (g != "") = true := by
      simp [bne_iff_ne]
      exact hne
    rw [this]
    simp
  · intro hg
    rcases hg with h | h <;> subst h <;>
      simp [build_chat_completion_messages, build_prompt, USE_GRAPH_INFO, pyTruthy]

/-- Witness for C7 at a concrete template, vuln info and graph text. -/
theorem C7_witness :
    (some "G" = some ("G" : String)) ∧ (("G" : String) ≠ "") ∧
    (build_chat_completion_messages "SYS"
        [TemplateSeg.lit "A", TemplateSeg.vulnerableMethod, TemplateSeg.lit "B",
         TemplateSeg.graphInfo]
        ⟨some "M", none, some "D"⟩ (some "G") "large").map ChatMessage.content =
      [(build_prompt "SYS"
          [TemplateSeg.lit "A", TemplateSeg.vulnerableMethod, TemplateSeg.lit "B",
           TemplateSeg.graphInfo]
          ⟨some "M", none, some "D"⟩ (some "G") "large").1,
       renderUserTemplate
         [TemplateSeg.lit "A", TemplateSeg.vulnerableMethod, TemplateSeg.lit "B",
          TemplateSeg.graphInfo]
         ((some "M").getD "") ((none : Option String).getD "")
         ((some "D").getD "") "G"] :=
  ⟨rfl, by decide,
   (C7_build_chat_completion_messages "SYS"
      [TemplateSeg.lit "A", TemplateSeg.vulnerableMethod, TemplateSeg.lit "B",
       TemplateSeg.graphInfo]
      ⟨some "M", none, some "D"⟩ (some "G") "large").2.2.1 "G" rfl (by decide)⟩

/-! ## `run/graph/graph_builder.py`: `SecurityGraphBuilder`

The `networkx.MultiDiGraph` is embedded as explicit node/edge lists.  The
generated node names `f"codeql_node_{n}"` / `f"semgrep_pattern_{n}"` are
embedded as the tagged constructors `NodeId.codeql n` / `NodeId.semgrep n`
(the numeric argument `n` is `len(self.graph.nodes) + 1` at creation time,
as in the source); nodes coming from the Joern GraphML import keep their
original string names as `NodeId.raw`. -/

/-- A graph node identifier. -/
inductive NodeId
  | raw (s : String)
  | codeql (k : Nat)
  | semgrep (k : Nat)
deriving DecidableEq

/-- Node attribute dictionary, restricted to the keys the builder reads or
writes (`METHOD_NAME`, `LINE_NUMBER` and `TYPE` are the upper-case Joern
GraphML keys; a missing key is `none`). -/
structure NodeAttrs where
  source : Option String := none
  nodeType : Option String := none
  label : Option String := none
  patternId : Option String := none
  severity : Option String := none
  message : Option String := none
  line : Option Nat := none
  column : Option Nat := none
  file : Option String := none
  methodNameAttr : Option String := none
  lineNumberAttr : Option Nat := none
  typeAttr : Option String := none
deriving DecidableEq

/-- Edge attribute dictionary (again `TYPE` is the Joern GraphML key). -/
structure EdgeAttrs where
  source : Option String := none
  edgeType : Option String := none
  typeAttr : Option String := none
deriving DecidableEq

/-- The security graph: a `networkx.MultiDiGraph` as node and edge lists
(parallel edges allowed, insertion order preserved). -/
structure SGraph where
  nodes : List (NodeId × NodeAttrs)
  edges : List (NodeId × NodeId × EdgeAttrs)
deriving DecidableEq

/-- `graph.add_node(id, **attrs)`: update the attributes when the node
exists, otherwise append it. -/
def addNode (g : SGraph) (id : NodeId) (a : NodeAttrs) : SGraph :=
  if g.nodes.any (fun p => p.1 == id) then
    { g with nodes := g.nodes.map (fun p => if p.1 == id then (id, a) else p) }
  else
    { g with nodes := g.nodes ++ [(id, a)] }

/-- `graph.add_edge(u, v, **attrs)` on a multigraph: append the edge. -/
def addEdge (g : SGraph) (u v : NodeId) (a : EdgeAttrs) : SGraph :=
  { g with edges := g.edges ++ [(u, v, a)] }

/-- One node of a CodeQL taint path (`node['label']`,
`node['location']['startLine']`, etc.; a missing key is `none`). -/
structure CqlNode where
  label : Option String
  startLine : Option Nat
  startColumn : Option Nat
  file : Option String
deriving DecidableEq

/-- The `scope` dictionary (`method_name`, `start_line`, `end_line`; a key
not put into the dictionary is `none`). -/
structure Scope where
  method_name : Option String := none
  start_line : Option Nat := none
  end_line : Option Nat := none
deriving DecidableEq

/-- Attributes of the CodeQL path node at position `i` of a path of
`total` nodes: the first node is the `SOURCE`, the last the `SINK`, the
rest `TAINT_STEP`s. -/
def taintAttrs (total : Nat) (n : CqlNode) (i : Nat) : NodeAttrs :=
  { label := some (n.label.getD ""), line := n.startLine,
    column := n.startColumn, file := n.file,
    source := some "codeql",
    nodeType := some (if i = 0 then "SOURCE"
      else if i = total - 1 then "SINK"
      else "TAINT_STEP") }

/-- One iteration of the `_add_taint_flow_path` loop: add the CodeQL node
(named after the current node count) and, unless it is the first node of
the path, the `TAINT_FLOW` edge from the previously created node. -/
def taintStep (total : Nat) (n : CqlNode) (i : Nat) (prev : Option NodeId)
    (g : SGraph) : SGraph :=
  match prev with
  | some p =>
    addEdge (addNode g (NodeId.codeql (g.nodes.length + 1)) (taintAttrs total n i))
      p (NodeId.codeql (g.nodes.length + 1))
      { source := some "codeql", edgeType := some "TAINT_FLOW" }
  | none => addNode g (NodeId.codeql (g.nodes.length + 1)) (taintAttrs total n i)

/-- Loop of `_add_taint_flow_path`: `total` is `len(path['nodes'])`,
`i` the position in the path, `prev` the previously created node. -/
def addTaintAux (total : Nat) : List CqlNode → Nat → Option NodeId → SGraph → SGraph
  | [], _, _, _g => _g
  | n :: rest, i, prev, g =>
    addTaintAux total rest (i + 1) (some (NodeId.codeql (g.nodes.length + 1)))
      (taintStep total n i prev g)

/-- `SecurityGraphBuilder._add_taint_flow_path` for a path with a `nodes`
list. -/
def add_taint_flow_path (g : SGraph) (pathNodes : List CqlNode) : SGraph :=
  addTaintAux pathNodes.length pathNodes 0 none g

/-- One Semgrep result (`check_id`, `extra.severity`, `extra.message`,
`start.line`; a missing key is `none`). -/
structure SemgrepResult where
  check_id : Option String
  severity : Option String
  message : Option String
  startLine : Option Nat
deriving DecidableEq

/-- The scope filter of `_parse_semgrep_results`: skip the result when both
scope lines are present and the (truthy) result line lies outside them. -/
def semgrepSkip (scope : Option Scope) (r : SemgrepResult) : Bool :=
  match scope with
  | none => false
  | some sc =>
    match sc.start_line, sc.end_line with
    | some s, some e =>
      match r.startLine with
      | some l => (l != 0) && (decide (l < s) || decide (e < l))
      | none => false
    | _, _ => false

/-- Attributes of the node added for one Semgrep result. -/
def semgrepAttrs (r : SemgrepResult) : NodeAttrs :=
  { label := r.check_id, patternId := r.check_id, severity := r.severity,
    message := r.message, line := r.startLine,
    source := some "semgrep", nodeType := some "SECURITY_PATTERN" }

/-- The `if line:` linking step of `_parse_semgrep_results`: when the
result line is truthy, add a `PATTERN_MATCH` edge from the new node `nid`
to every node of the (post-insertion) graph whose attributes have
`source == 'joern'` and the same `line`. -/
def semgrepLink (g1 : SGraph) (nid : NodeId) (lineOpt : Option Nat) : SGraph :=
  match lineOpt with
  | some l =>
    if l ≠ 0 then
      (g1.nodes.filter
        (fun p => p.2.source == some "joern" && p.2.line == some l)).foldl
        (fun acc p => addEdge acc nid p.1
          { source := some "semgrep", edgeType := some "PATTERN_MATCH" }) g1
    else g1
  | none => g1

/-- `SecurityGraphBuilder._parse_semgrep_results` (the loop over
`results['results']`): add a `SECURITY_PATTERN` node per surviving result
and link it to the matching `source='joern'` nodes by line number. -/
def parse_semgrep_results (g : SGraph) : List SemgrepResult → Option Scope → SGraph
  | [], _ => g
  | r :: rest, scope =>
    if semgrepSkip scope r then parse_semgrep_results g rest scope
    else parse_semgrep_results
      (semgrepLink
        (addNode g (NodeId.semgrep (g.nodes.length + 1)) (semgrepAttrs r))
        (NodeId.semgrep (g.nodes.length + 1)) r.startLine)
      rest scope

/-- The node scope filter of `_integrate_joern_graph`. -/
def joernSkip (scope : Option Scope) (a : NodeAttrs) : Bool :=
  match scope with
  | none => false
  | some sc =>
    (match sc.method_name, a.methodNameAttr with
     | some mn, some amn => amn != mn
     | _, _ => false) ||
    (match sc.start_line, sc.end_line, a.lineNumberAttr with
     | some s, some e, some ln => decide (ln < s) || decide (e < ln)
     | _, _, _ => false)

/-- `SecurityGraphBuilder._integrate_joern_graph`: copy the scope-filtered
Joern nodes into the main graph tagged `source='joern'`, then copy the
edges whose endpoints both made it in. -/
def integrate_joern_graph (g : SGraph) (joern : SGraph) (scope : Option Scope) : SGraph :=
  let g1 := joern.nodes.foldl (fun acc p =>
    if joernSkip scope p.2 then acc
    else addNode acc p.1
      { p.2 with
        source := some "joern",
        nodeType := some (p.2.typeAttr.getD "UNKNOWN") }) g
  joern.edges.foldl (fun acc e =>
    if (acc.nodes.any (fun p => p.1 == e.1)) && (acc.nodes.any (fun p => p.1 == e.2.1)) then
      addEdge acc e.1 e.2.1
        { e.2.2 with
          source := some "joern",
          edgeType := some (e.2.2.typeAttr.getD "UNKNOWN") }
    else acc) g1

theorem addNode_edges (g : SGraph) (id : NodeId) (a : NodeAttrs) :
    (addNode g id a).edges = g.edges := by
  unfold addNode
  split <;> rfl

theorem addNode_nodes_mem (g : SGraph) (id : NodeId) (a : NodeAttrs) :
    ∀ p ∈ (addNode g id a).nodes, p ∈ g.nodes ∨ p = (id, a) := by
  intro p hp
  unfold addNode at hp
  split at hp
  · simp only [List.mem_map] at hp
    rcases hp with ⟨q, hq, hqe⟩
    by_cases h : q.1 == id
    · rw [if_pos h] at hqe
      exact Or.inr hqe.symm
    · rw [if_neg h] at hqe
      exact Or.inl (hqe ▸ hq)
  · simp only [List.mem_append, List.mem_singleton] at hp
    exact hp

theorem addEdge_edges (g : SGraph) (u v : NodeId) (a : EdgeAttrs) :
    (addEdge g u v a).edges = g.edges ++ [(u, v, a)] := rfl

theorem addEdge_nodes (g : SGraph) (u v : NodeId) (a : EdgeAttrs) :
    (addEdge g u v a).nodes = g.nodes := rfl

theorem foldAddEdge_nodes (l : List (NodeId × NodeAttrs)) (nid : NodeId)
    (ea : EdgeAttrs) (g : SGraph) :
    (l.foldl (fun acc p => addEdge acc nid p.1 ea) g).nodes = g.nodes := by
  induction l generalizing g with
  | nil => rfl
  | cons hd tl ih =>
    simp only [List.foldl_cons]
    rw [ih, addEdge_nodes]

theorem foldAddEdge_edges_mem (l : List (NodeId × NodeAttrs)) (nid : NodeId)
    (ea : EdgeAttrs) (g : SGraph) :
    ∀ e ∈ (l.foldl (fun acc p => addEdge acc nid p.1 ea) g).edges,
      e ∈ g.edges ∨ ∃ p ∈ l, e = (nid, p.1, ea) := by
  induction l generalizing g with
  | nil => intro e he; exact Or.inl he
  | cons hd tl ih =>
    intro e he
    simp only [List.foldl_cons] at he
    rcases ih (addEdge g nid hd.1 ea) e he with h | h
    · rw [addEdge_edges] at h
      simp only [List.mem_append, List.mem_singleton] at h
      rcases h with h | h
      · exact Or.inl h
      · exact Or.inr ⟨hd, List.mem_cons_self hd tl, h⟩
    · rcases h with ⟨p, hp, hpe⟩
      exact Or.inr ⟨p, List.mem_cons_of_mem hd hp, hpe⟩

theorem semgrepLink_nodes (g : SGraph) (nid : NodeId) (lo : Option Nat) :
    (semgrepLink g nid lo).nodes = g.nodes := by
  cases lo with
  | none => rfl
  | some l =>
    simp only [semgrepLink]
    by_cases h : l ≠ 0
    · rw [if_pos h, foldAddEdge_nodes]
    · rw [if_neg h]

theorem semgrepLink_edges_mem (g : SGraph) (nid : NodeId) (lo : Option Nat) :
    ∀ e ∈ (semgrepLink g nid lo).edges,
      e ∈ g.edges ∨
      ∃ l a, lo = some l ∧ l ≠ 0 ∧ (e.2.1, a) ∈ g.nodes ∧
        a.source = some "joern" ∧ a.line = some l ∧ e.1 = nid ∧
        e.2.2 = { source := some "semgrep", edgeType := some "PATTERN_MATCH" } := by
  intro e he
  cases lo with
  | none => exact Or.inl he
  | some l =>
    simp only [semgrepLink] at he
    by_cases h : l ≠ 0
    · rw [if_pos h] at he
      rcases foldAddEdge_edges_mem _ _ _ _ e he with h1 | h1
      · exact Or.inl h1
      · rcases h1 with ⟨p, hp, hpe⟩
        simp only [List.mem_filter, Bool.and_eq_true, beq_iff_eq] at hp
        refine Or.inr ⟨l, p.2, rfl, h, ?_, hp.2.1, hp.2.2, ?_, ?_⟩
        · rw [hpe]
          exact hp.1
        · rw [hpe]
        · rw [hpe]
    · rw [if_neg h] at he
      exact Or.inl he

theorem parse_semgrep_nodes_mem (rs : List SemgrepResult) (scope : Option Scope)
    (g : SGraph) :
    ∀ p ∈ (parse_semgrep_results g rs scope).nodes,
      p ∈ g.nodes ∨ p.2.source = some "semgrep" := by
  induction rs generalizing g with
  | nil => intro p hp; exact Or.inl hp
  | cons r rest ih =>
    intro p hp
    simp only [parse_semgrep_results] at hp
    split at hp
    · exact ih g p hp
    · rcases ih _ p hp with h | h
      · rw [semgrepLink_nodes] at h
        rcases addNode_nodes_mem _ _ _ p h with h1 | h1
        · exact Or.inl h1
        · subst h1
          exact Or.inr rfl
      · exact Or.inr h

theorem parse_semgrep_edges_mem (rs : List SemgrepResult) (scope : Option Scope)
    (g : SGraph) :
    ∀ e ∈ (parse_semgrep_results g rs scope).edges,
      e ∈ g.edges ∨
      ((∃ k, e.1 = NodeId.semgrep k) ∧
        e.2.2 = { source := some "semgrep", edgeType := some "PATTERN_MATCH" } ∧
        ∃ a l, (e.2.1, a) ∈ g.nodes ∧ a.source = some "joern" ∧
          a.line = some l ∧ l ≠ 0 ∧ ∃ r ∈ rs, r.startLine = some l) := by
  induction rs generalizing g with
  | nil => intro e he; exact Or.inl he
  | cons r rest ih =>
    intro e he
    simp only [parse_semgrep_results] at he
    split at he
    · rcases ih g e he with h | h
      · exact Or.inl h
      · rcases h with ⟨h1, h2, a, l, h3, h4, h5, h6, r', hr', hr'l⟩
        exact Or.inr ⟨h1, h2, a, l, h3, h4, h5, h6, r', List.mem_cons_of_mem r hr', hr'l⟩
    · rcases ih _ e he with h | h
      · rcases semgrepLink_edges_mem _ _ _ e h with h1 | h1
        · rw [addNode_edges] at h1
          exact Or.inl h1
        · rcases h1 with ⟨l, a, hlo, hl0, hmem, hsrc, hline, he1, he2⟩
          rcases addNode_nodes_mem _ _ _ _ hmem with h2 | h2
          · exact Or.inr ⟨⟨_, he1⟩, he2, a, l, h2, hsrc, hline, hl0,
              r, List.mem_cons_self r rest, hlo⟩
          · exfalso
            have : a = semgrepAttrs r := congrArg Prod.snd h2
            rw [this] at hsrc
            simp [semgrepAttrs] at hsrc
      · rcases h with ⟨h1, h2, a, l, h3, h4, h5, h6, r', hr', hr'l⟩
        rw [semgrepLink_nodes] at h3
        rcases addNode_nodes_mem _ _ _ _ h3 with hm | hm
        · exact Or.inr ⟨h1, h2, a, l, hm, h4, h5, h6, r', List.mem_cons_of_mem r hr', hr'l⟩
        · exfalso
          have : a = semgrepAttrs r := congrArg Prod.snd hm
          rw [this] at h4
          simp [semgrepAttrs] at h4

theorem addTaintAux_edges_mem (total : Nat) (ns : List CqlNode) (i : Nat)
    (prev : Option NodeId) (g : SGraph)
    (hprev : ∀ pid, prev = some pid → ∃ k, pid = NodeId.codeql k) :
    ∀ e ∈ (addTaintAux total ns i prev g).edges,
      e ∈ g.edges ∨
      ((∃ k, e.1 = NodeId.codeql k) ∧ (∃ k, e.2.1 = NodeId.codeql k) ∧
        e.2.2 = { source := some "codeql", edgeType := some "TAINT_FLOW" }) := by
  induction ns generalizing i prev g with
  | nil => intro e he; exact Or.inl he
  | cons n rest ih =>
    intro e he
    simp only [addTaintAux] at he
    rcases ih (i + 1) (some (NodeId.codeql (g.nodes.length + 1)))
      (taintStep total n i prev g)
      (fun pid h => ⟨g.nodes.length + 1, (Option.some_inj.1 h).symm⟩) e he with h | h
    · unfold taintStep at h
      cases hp : prev with
      | none =>
        rw [hp] at h
        rw [addNode_edges] at h
        exact Or.inl h
      | some p =>
        rw [hp] at h
        rw [addEdge_edges, addNode_edges] at h
        simp only [List.mem_append, List.mem_singleton] at h
        rcases h with h | h
        · exact Or.inl h
        · subst h
          rcases hprev p hp with ⟨k, hk⟩
          exact Or.inr ⟨⟨k, hk⟩, ⟨g.nodes.length + 1, rfl⟩, rfl⟩
    · exact Or.inr h

theorem integrate_joern_foldEdges_nodes (es : List (NodeId × NodeId × EdgeAttrs))
    (g : SGraph) :
    (es.foldl (fun acc e =>
      if (acc.nodes.any (fun p => p.1 == e.1)) && (acc.nodes.any (fun p => p.1 == e.2.1)) then
        addEdge acc e.1 e.2.1
          { e.2.2 with
            source := some "joern",
            edgeType := some (e.2.2.typeAttr.getD "UNKNOWN") }
      else acc) g).nodes = g.nodes := by
  induction es generalizing g with
  | nil => rfl
  | cons hd tl ih =>
    simp only [List.foldl_cons]
    rw [ih]
    split <;> rfl

theorem integrate_joern_nodes_mem (g joern : SGraph) (scope : Option Scope) :
    ∀ p ∈ (integrate_joern_graph g joern scope).nodes,
      p ∈ g.nodes ∨ p.2.source = some "joern" := by
  unfold integrate_joern_graph
  rw [integrate_joern_foldEdges_nodes]
  generalize joern.nodes = jn
  induction jn generalizing g with
  | nil => intro p hp; exact Or.inl hp
  | cons hd tl ih =>
    intro p hp
    simp only [List.foldl_cons] at hp
    by_cases hskip : joernSkip scope hd.2
    · rw [if_pos hskip] at hp
      exact ih g p hp
    · rw [if_neg hskip] at hp
      rcases ih _ p hp with h | h
      · rcases addNode_nodes_mem _ _ _ p h with h1 | h1
        · exact Or.inl h1
        · subst h1
          exact Or.inr rfl
      · exact Or.inr h

/-- A Joern-sourced node sitting at line 5, used to exercise the merge
heuristics on concrete graphs. -/
def joernNodeC2 : NodeId × NodeAttrs :=
  (NodeId.raw "j1", { source := some "joern", line := some 5, lineNumberAttr := some 5 })

/-- A one-node graph holding only `joernNodeC2`. -/
def gC2 : SGraph := ⟨[joernNodeC2], []⟩

/-- A one-node CodeQL taint path whose node is located at line 5 — the same
line as the Joern node of `gC2`. -/
def pathC2 : List CqlNode := [⟨some "src", some 5, none, none⟩]

/-- A two-node CodeQL taint path. -/
def pathC2b : List CqlNode :=
  [⟨some "src", some 5, none, none⟩, ⟨some "snk", some 9, none, none⟩]

/-- C2 counterexample: adding a CodeQL taint-path node at line 5 to a graph
that already holds a Joern node at line 5 creates no edge at all — the
CodeQL node is *not* matched to the existing Joern node by line number,
contradicting the claim. -/
theorem C2_counterexample :
    (add_taint_flow_path gC2 pathC2).edges = [] ∧
    (add_taint_flow_path gC2 pathC2).nodes =
      [joernNodeC2,
       (NodeId.codeql 2,
        { label := some "src", line := some 5,
          source := some "codeql", nodeType := some "SOURCE" })] := by
  constructor
  · rfl
  · rfl

/-- C2 (amended): the outputs of the three external tools are merged into
the one graph object by attribute-matching heuristics, but the line-number
matching applies to *Semgrep* result nodes, not CodeQL ones: (a) every
edge `_add_taint_flow_path` adds merely chains the freshly created CodeQL
path nodes together with `TAINT_FLOW` edges; (b) every edge
`_parse_semgrep_results` adds links the new Semgrep pattern node to a
pre-existing node whose attributes carry `source='joern'` and whose `line`
equals the (truthy) line of some processed Semgrep result; (c)
`_integrate_joern_graph` only adds nodes tagged `source='joern'`. -/
theorem C2_amended (g joern : SGraph) (pathNodes : List CqlNode)
    (rs : List SemgrepResult) (scope : Option Scope) :
    (∀ e ∈ (add_taint_flow_path g pathNodes).edges,
      e ∈ g.edges ∨
      ((∃ k, e.1 = NodeId.codeql k) ∧ (∃ k, e.2.1 = NodeId.codeql k) ∧
        e.2.2 = { source := some "codeql", edgeType := some "TAINT_FLOW" })) ∧
    (∀ e ∈ (parse_semgrep_results g rs scope).edges,
      e ∈ g.edges ∨
      ((∃ k, e.1 = NodeId.semgrep k) ∧
        e.2.2 = { source := some "semgrep", edgeType := some "PATTERN_MATCH" } ∧
        ∃ a l, (e.2.1, a) ∈ g.nodes ∧ a.source = some "joern" ∧
          a.line = some l ∧ l ≠ 0 ∧ ∃ r ∈ rs, r.startLine = some l)) ∧
    (∀ p ∈ (integrate_joern_graph g joern scope).nodes,
      p ∈ g.nodes ∨ p.2.source = some "joern") :=
  ⟨addTaintAux_edges_mem pathNodes.length pathNodes 0 none g (fun _ h => by cases h),
   parse_semgrep_edges_mem rs scope g,
   integrate_joern_nodes_mem g joern scope⟩

/-- Witness for C2 (amended) on concrete graphs: the single `TAINT_FLOW`
edge produced by a two-node taint path satisfies the chaining property, and
the single `PATTERN_MATCH` edge produced by a line-5 Semgrep result
satisfies the joern-by-line matching property. -/
theorem C2_witness :
    ((NodeId.codeql 2, NodeId.codeql 3,
        ({ source := some "codeql", edgeType := some "TAINT_FLOW" } : EdgeAttrs)) ∈
      (add_taint_flow_path gC2 pathC2b).edges) ∧
    ((NodeId.codeql 2, NodeId.codeql 3,
        ({ source := some "codeql", edgeType := some "TAINT_FLOW" } : EdgeAttrs)) ∈ gC2.edges ∨
      ((∃ k, (NodeId.codeql 2 : NodeId) = NodeId.codeql k) ∧
       (∃ k, (NodeId.codeql 3 : NodeId) = NodeId.codeql k) ∧
       ({ source := some "codeql", edgeType := some "TAINT_FLOW" } : EdgeAttrs) =
         { source := some "codeql", edgeType := some "TAINT_FLOW" })) :=
  ⟨by decide,
   (C2_amended gC2 ⟨[], []⟩ pathC2b [] none).1
     (NodeId.codeql 2, NodeId.codeql 3,
      { source := some "codeql", edgeType := some "TAINT_FLOW" }) (by decide)⟩

/-! ## `run/evaluation/evaluator.py`: `VulnerabilityFixEvaluator.evaluate_fix`

The function is embedded in early-return style over `Except EvalExit`:
`Except.error (.ret r)` models a `return r` statement, `.error (.raise e)`
a raised exception, and the code that syntactically follows the
unconditional `return result` at line 168 (the Semgrep security check and
the test-execution phase) sits after that error in the same `bind` chain —
present in the definition, but never executed.  The result dictionary is an
association list so that its set of top-level keys is observable.
File-system interaction is an oracle record `EvalEnv`; the block that loads
and copies the original code (lines 74-85) and the block that saves the
target code (lines 117-121) only log on failure and touch neither the
result nor the control flow, so they appear only as the unused oracle
fields `originalRead` / `writeOriginalCopy` / `writeTarget`. -/

/-- A JSON-like value stored in the result dictionary. -/
inductive RVal
  | null
  | bool (b : Bool)
  | num (q : ℚ)
  | str (s : String)
  | dict (l : List (String × RVal))

/-- A Python dictionary with string keys, as an ordered association list. -/
abbrev ResultDict := List (String × RVal)

/-- `d[k] = v`: update in place when the key exists, else append. -/
def setKey (r : ResultDict) (k : String) (v : RVal) : ResultDict :=
  if r.any (fun p => p.1 == k) then
    r.map (fun p => if p.1 == k then (k, v) else p)
  else r ++ [(k, v)]

/-- `d.get(k)`. -/
def lookupKey (r : ResultDict) (k : String) : Option RVal :=
  (r.find? (fun p => p.1 == k)).map Prod.snd

/-- `result = {'bug_id': bug_id, 'code_quality': None, 'details': {}}`. -/
def initEvalResult (bugId : String) : ResultDict :=
  [("bug_id", .str bugId), ("code_quality", .null), ("details", .dict [])]

/-- `result['details'][k] = v`. -/
def updateDetails (r : ResultDict) (k : String) (v : RVal) : ResultDict :=
  match lookupKey r "details" with
  | some (.dict d) => setKey r "details" (.dict (setKey d k v))
  | _ => setKey r "details" (.dict (setKey [] k v))

/-- How `evaluate_fix` leaves its body: an executed `return` statement, or
a raised exception. -/
inductive EvalExit
  | ret (r : ResultDict)
  | raise (e : PyExc)

/-- File-system / external-tool oracle for one `evaluate_fix` call. -/
structure EvalEnv where
  fixedFileExists : Bool
  originalRead : Except PyExc String
  writeOriginalCopy : Except PyExc Unit
  fixedRead : Except PyExc String
  writeGenerated : Except PyExc Unit
  targetFileExists : Bool
  targetRead : Except PyExc String
  writeTarget : Except PyExc Unit
  codebleuScore : Option ℚ
  writeCodebleuResult : Except PyExc Unit
  findRule : Option String
  semgrepOriginalVuln : Bool
  semgrepFixedVuln : Bool
  testsPass : Option Bool

/-- Resolution of `target_code` (lines 101-114): use the argument when
given, else load `original_file.replace('before.java', 'after.java')`,
returning `result` early when that file is missing or unreadable. -/
def resolveTarget (env : EvalEnv) (targetCode : Option String)
    (result : ResultDict) : Except EvalExit String :=
  match targetCode with
  | some t => .ok t
  | none =>
    if env.targetFileExists then
      match env.targetRead with
      | .ok t => .ok t
      | .error _ => .error (.ret result)
    else .error (.ret result)

/-- The result dictionary as it stands at the line-168 `return`:
`code_quality` set from the CodeBLEU score and
`details['code_quality'] = {'code_bleu': score}`. -/
def resultWithScore (env : EvalEnv) (bugId : String) : ResultDict :=
  setKey
    (setKey (initEvalResult bugId) "code_quality"
      (match env.codebleuScore with | some q => RVal.num q | none => RVal.null))
    "details"
    (.dict [("code_quality",
      .dict [("code_bleu",
        match env.codebleuScore with | some q => RVal.num q | none => RVal.null)])])

/-- Lines 170-278 of `evaluate_fix`: the Semgrep security check, the
target-file code-quality check and the test phase.  This code follows the
unconditional line-168 `return` and is therefore unreachable; note that
when `target_code` was supplied, line 198 would read the never-bound local
`target_file` and raise `NameError`. -/
def evaluate_fix_after_return (r : ResultDict) (env : EvalEnv)
    (targetCode : Option String) : Except EvalExit ResultDict :=
  let r1 := match env.findRule with
    | some ruleFile =>
      updateDetails
        (setKey r "security" (.bool (env.semgrepOriginalVuln && !env.semgrepFixedVuln)))
        "security"
        (.dict [("original_vulnerable", .bool env.semgrepOriginalVuln),
                ("fixed_vulnerable", .bool env.semgrepFixedVuln),
                ("rule_file", .str ruleFile)])
    | none => r
  match targetCode with
  | some _ => .error (.raise .nameError)
  | none =>
    let r2 := if env.targetFileExists then
        updateDetails
          (setKey r1 "code_quality"
            (match env.codebleuScore with | some q => RVal.num q | none => RVal.null))
          "code_quality"
          (.dict [("code_bleu",
            match env.codebleuScore with | some q => RVal.num q | none => RVal.null)])
      else r1
    let r3 := match env.testsPass with
      | some b => setKey (setKey r2 "functionality" (.bool b)) "soundness" (.bool b)
      | none => r2
    .ok r3

/-- The body of `evaluate_fix` (lines 55-278) in early-return style. -/
def evaluate_fix_body (env : EvalEnv) (bugId : String)
    (targetCode : Option String) : Except EvalExit ResultDict :=
  if env.fixedFileExists then
    match env.fixedRead with
    | .error _ => .error (.ret (initEvalResult bugId))
    | .ok _fixedCode =>
      match env.writeGenerated with
      | .error _ => .error (.ret (initEvalResult bugId))
      | .ok _ =>
        match resolveTarget env targetCode (initEvalResult bugId) with
        | .error ex => .error ex
        | .ok _t =>
          match env.writeCodebleuResult with
          | .ok _ =>
            (Except.error (EvalExit.ret (resultWithScore env bugId)) :
                Except EvalExit Unit).bind
              (fun _ => evaluate_fix_after_return (resultWithScore env bugId) env targetCode)
          | .error _ => .error (.raise PyExc.attributeError)
  else .error (.ret (initEvalResult bugId))

/-- `VulnerabilityFixEvaluator.evaluate_fix`: an executed `return`
statement yields the returned dictionary, a raised exception propagates to
the caller. -/
def evaluate_fix (env : EvalEnv) (bugId : String) (targetCode : Option String) :
    Except PyExc ResultDict :=
  match evaluate_fix_body env bugId targetCode with
  | .ok r => .ok r
  | .error (.ret r) => .ok r
  | .error (.raise e) => .error e

/-- Whether the CodeBLEU call is reached (fixed file present and readable,
its copy written, and some target code available). -/
def exOk {α : Type} : Except PyExc α → Bool
  | .ok _ => true
  | .error _ => false

/-- All guards before the CodeBLEU computation pass. -/
def evalReached (env : EvalEnv) (tc : Option String) : Bool :=
  env.fixedFileExists && exOk env.fixedRead && exOk env.writeGenerated &&
    (tc.isSome || (env.targetFileExists && exOk env.targetRead))

/-- An `evaluate_fix` oracle on which every guard passes but writing
`codebleu_result.json` raises. -/
def envC8 : EvalEnv :=
  { fixedFileExists := true, originalRead := .ok "o", writeOriginalCopy := .ok (),
    fixedRead := .ok "f", writeGenerated := .ok (), targetFileExists := true,
    targetRead := .ok "t", writeTarget := .ok (), codebleuScore := some (1/2),
    writeCodebleuResult := .error .ioError, findRule := none,
    semgrepOriginalVuln := false, semgrepFixedVuln := false, testsPass := none }

/-- The same oracle with the CodeBLEU-result write succeeding. -/
def envC8ok : EvalEnv := { envC8 with writeCodebleuResult := .ok () }

/-- C8 counterexample: when writing `codebleu_result.json` raises, the
`except` handler calls the undefined method `_generate_html_report` and
`evaluate_fix` raises `AttributeError` instead of returning a dictionary —
so it does not *always* return a dictionary with the three keys. -/
theorem C8_counterexample :
    evaluate_fix envC8 "bug-1" (some "target") = Except.error PyExc.attributeError ∧
    ∀ r : ResultDict, evaluate_fix envC8 "bug-1" (some "target") ≠ Except.ok r := by
  refine ⟨rfl, ?_⟩
  intro r h
  exact Except.noConfusion h

/-- C8 (amended): whenever the write of `codebleu_result.json` does not
raise, `evaluate_fix` returns a dictionary whose top-level keys are exactly
`bug_id`, `code_quality` and `details` — in particular the `security`,
`functionality` and `soundness` keys set by the code after the
unconditional line-168 return never appear, that code being unreachable —
with `code_quality` equal to `None` exactly on the early-return paths
(missing or unreadable fixed file, no target code available) or when the
CodeBLEU computation yields `None`. -/
theorem C8_amended (env : EvalEnv) (bugId : String) (tc : Option String)
    (hw : env.writeCodebleuResult = .ok ()) :
    ∃ r, evaluate_fix env bugId tc = .ok r ∧
      r.map Prod.fst = ["bug_id", "code_quality", "details"] ∧
      lookupKey r "security" = none ∧
      lookupKey r "functionality" = none ∧
      lookupKey r "soundness" = none ∧
      lookupKey r "bug_id" = some (.str bugId) ∧
      (evalReached env tc = false → lookupKey r "code_quality" = some RVal.null) ∧
      (evalReached env tc = true →
        lookupKey r "code_quality" =
          some (match env.codebleuScore with
                | some q => RVal.num q
                | none => RVal.null)) := by
  obtain ⟨ff, ord, woc, fr, wg, tfe, tr, wt, cb, wcb, frule, sov, sfv, tp⟩ := env
  simp only at hw
  subst hw
  cases ff <;> cases fr <;> cases wg <;> cases tc <;> cases tfe <;> cases tr <;>
    first
    | exact ⟨_, rfl, rfl, rfl, rfl, rfl, rfl, fun _ => rfl,
        fun h => by simp [evalReached, exOk] at h⟩
    | exact ⟨_, rfl, rfl, rfl, rfl, rfl, rfl,
        fun h => by simp [evalReached, exOk] at h, fun _ => rfl⟩

/-- Witness for C8 (amended) at the concrete all-passing oracle. -/
theorem C8_witness : envC8ok.writeCodebleuResult = Except.ok () ∧
    (∃ r, evaluate_fix envC8ok "bug-1" (some "target") = .ok r ∧
      r.map Prod.fst = ["bug_id", "code_quality", "details"] ∧
      lookupKey r "security" = none ∧
      lookupKey r "functionality" = none ∧
      lookupKey r "soundness" = none ∧
      lookupKey r "bug_id" = some (.str "bug-1") ∧
      (evalReached envC8ok (some "target") = false →
        lookupKey r "code_quality" = some RVal.null) ∧
      (evalReached envC8ok (some "target") = true →
        lookupKey r "code_quality" =
          some (match envC8ok.codebleuScore with
                | some q => RVal.num q
                | none => RVal.null))) :=
  ⟨rfl, C8_amended envC8ok "bug-1" (some "target") rfl⟩

/-! ## `run/main.py`: `process_bug` and the `main` loop

`process_bug` is embedded in the same early-return style over
`Except (PyExc × PBResult × List Ev)`: an `Except.error (e, r, t)` is an
exception `e` escaping the body while the result dictionary holds `r` (the
outer `try/except` of `process_bug` catches it and returns `r`), an
`Except.ok (r, t)` is an ordinary `return r`.  `t` is the trace of
observable events: stage completions (the points where
`result["stages"][...] = True` runs), the call into `inference.generate`,
and the artifact files written.  External effects are the oracle record
`PBEnv`; `save_graph` returns a `Bool` and catches its own exceptions, so
it has no control effect and appears only as the unused oracle field
`saveGraph`.  Code extraction is not an oracle: it is the
`extract_code_from_response` embedding above, applied to the oracle's LLM
response. -/

/-- An artifact file written under the results directory. -/
inductive ArtifactPath
  | graphText (bug : String)
  | promptJson (bug : String)
  | responseTxt (bug : String)
  | codeJava (bug : String)
  | allResults
deriving DecidableEq

/-- An observable event of one `process_bug` run. -/
inductive Ev
  | stageExtraction
  | stageGraph
  | stageInference
  | stageEvaluation
  | llmCalled
  | wrote (f : ArtifactPath)
deriving DecidableEq

/-- Oracle record for one `process_bug` call (plus the `all_results.json`
dump that `main` performs right after it). -/
structure PBEnv where
  extraction : Except PyExc (Option Unit)
  buildGraph : Except PyExc Unit
  saveGraph : Bool
  extractGraphInfo : Except PyExc String
  writeGraphText : Except PyExc Unit
  buildMessages : Except PyExc Unit
  buildText : Except PyExc Unit
  writePrompt : Except PyExc Unit
  llmInit : Except PyExc Unit
  generate : Option String
  writeResponse : Except PyExc Unit
  writeCode : Except PyExc Unit
  integrate : Except PyExc (Bool × Option String)
  evalFix : Except PyExc ResultDict
  writeAllResults : Except PyExc Unit

/-- The `result` dictionary of `process_bug`: `success`, the `stages`
sub-dictionary (one Boolean per stage key, absent = `false`), and the
`evaluation` entry. -/
structure PBResult where
  bug_id : String
  success : Bool
  stExtraction : Bool
  stGraph : Bool
  stInference : Bool
  stEvaluation : Bool
  evaluation : Option ResultDict

/-- `result = {"bug_id": bug_id, "success": False, "stages": {}}`. -/
def pbInit (bug : String) : PBResult :=
  { bug_id := bug, success := false, stExtraction := false, stGraph := false,
    stInference := false, stEvaluation := false, evaluation := none }

/-- The result right after `result["stages"]["extraction"] = True`. -/
def pbR1 (bug : String) : PBResult := { pbInit bug with stExtraction := true }

/-- Step 2 (security-graph construction), entered only when `use_graph`:
build the graph, (save it — no control effect), extract and format the
graph info, write the graph-info text file, set the stage flag. -/
def graphStage (bug : String) (env : PBEnv) (use_graph : Bool) :
    Except (PyExc × PBResult × List Ev) (PBResult × List Ev) :=
  if use_graph then
    match env.buildGraph with
    | .error e => .error (e, pbR1 bug, [Ev.stageExtraction])
    | .ok _ =>
      match env.extractGraphInfo with
      | .error e => .error (e, pbR1 bug, [Ev.stageExtraction])
      | .ok _ =>
        match env.writeGraphText with
        | .error e => .error (e, pbR1 bug, [Ev.stageExtraction])
        | .ok _ =>
          .ok ({ pbR1 bug with stGraph := true },
            [Ev.stageExtraction, Ev.wrote (ArtifactPath.graphText bug), Ev.stageGraph])
  else .ok (pbR1 bug, [Ev.stageExtraction])

/-- Steps 5-6 (code integration and CodeBLEU evaluation), entered with the
result as it stands after the inference stage; on full completion (or when
`evaluate` is off) `result["success"] = True` is set. -/
def evalStage (env : PBEnv) (evaluate : Bool) (r : PBResult) (t : List Ev) :
    Except (PyExc × PBResult × List Ev) (PBResult × List Ev) :=
  if evaluate then
    match env.integrate with
    | .error e => .error (e, r, t)
    | .ok (success, fixedFile) =>
      if success && pyTruthy fixedFile then
        match env.evalFix with
        | .error e => .error (e, r, t)
        | .ok er =>
          .ok ({ r with stEvaluation := true, evaluation := some er, success := true },
            t ++ [Ev.stageEvaluation])
      else .ok (r, t)
  else .ok ({ r with success := true }, t)

/-- Steps 3-4 (prompt construction, prompt dump, LLM inference, response
dump, code extraction, code dump) followed by `evalStage`. -/
def promptAndInference (bug : String) (env : PBEnv) (evaluate : Bool)
    (model_type : String) (r : PBResult) (t : List Ev) :
    Except (PyExc × PBResult × List Ev) (PBResult × List Ev) :=
  match (if model_type = "openai" ∨ model_type = "anthropic"
         then env.buildMessages else env.buildText) with
  | .error e => .error (e, r, t)
  | .ok _ =>
    match env.writePrompt with
    | .error e => .error (e, r, t)
    | .ok _ =>
      match env.llmInit with
      | .error e => .error (e, r, t ++ [Ev.wrote (ArtifactPath.promptJson bug)])
      | .ok _ =>
        match env.generate with
        | none => .ok (r, t ++ [Ev.wrote (ArtifactPath.promptJson bug), Ev.llmCalled])
        | some resp =>
          if resp = "" then
            .ok (r, t ++ [Ev.wrote (ArtifactPath.promptJson bug), Ev.llmCalled])
          else
            match env.writeResponse with
            | .error e => .error (e, r,
                t ++ [Ev.wrote (ArtifactPath.promptJson bug), Ev.llmCalled])
            | .ok _ =>
              match extract_code_from_response (some resp) with
              | none => .ok (r,
                  t ++ [Ev.wrote (ArtifactPath.promptJson bug), Ev.llmCalled,
                    Ev.wrote (ArtifactPath.responseTxt bug)])
              | some code =>
                if code = "" then
                  .ok (r,
                    t ++ [Ev.wrote (ArtifactPath.promptJson bug), Ev.llmCalled,
                      Ev.wrote (ArtifactPath.responseTxt bug)])
                else
                  match env.writeCode with
                  | .error e => .error (e, r,
                      t ++ [Ev.wrote (ArtifactPath.promptJson bug), Ev.llmCalled,
                        Ev.wrote (ArtifactPath.responseTxt bug)])
                  | .ok _ =>
                    evalStage env evaluate { r with stInference := true }
                      (t ++ [Ev.wrote (ArtifactPath.promptJson bug), Ev.llmCalled,
                        Ev.wrote (ArtifactPath.responseTxt bug),
                        Ev.wrote (ArtifactPath.codeJava bug), Ev.stageInference])

/-- The body of `process_bug` (inside the outer `try`). -/
def process_bug_body (bug : String) (env : PBEnv) (use_graph evaluate : Bool)
    (model_type : String) : Except (PyExc × PBResult × List Ev) (PBResult × List Ev) :=
  match env.extraction with
  | .error e => .error (e, pbInit bug, [])
  | .ok none => .ok (pbInit bug, [])
  | .ok (some _) =>
    match graphStage bug env use_graph with
    | .error x => .error x
    | .ok (r, t) => promptAndInference bug env evaluate model_type r t

/-- `process_bug`: the outer `try/except` turns any escaping exception
into returning the partial result dictionary. -/
def process_bug (bug : String) (env : PBEnv) (use_graph evaluate : Bool)
    (model_type : String) : PBResult × List Ev :=
  match process_bug_body bug env use_graph evaluate model_type with
  | .ok x => x
  | .error (_, r, t) => (r, t)

/-- The per-bug loop of `main`: run `process_bug` (which cannot raise),
record the result under the bug id, dump `all_results.json` (a failing
dump is caught by the loop's own `try/except` and the loop continues). -/
def mainLoop : List (String × PBEnv) → Bool → Bool → String →
    List (String × PBResult) × List Ev
  | [], _, _, _ => ([], [])
  | (bug, env) :: rest, ug, ev, mt =>
    ((bug, (process_bug bug env ug ev mt).1) :: (mainLoop rest ug ev mt).1,
     (process_bug bug env ug ev mt).2 ++
       (match env.writeAllResults with
        | .ok _ => [Ev.wrote ArtifactPath.allResults]
        | .error _ => []) ++
       (mainLoop rest ug ev mt).2)

/-- The stage-completion events of a trace, in order. -/
def stageTags (t : List Ev) : List Ev :=
  t.filter (fun e => match e with
    | .stageExtraction => true
    | .stageGraph => true
    | .stageInference => true
    | .stageEvaluation => true
    | _ => false)

/-- The full ordered stage list for the given flags: extraction, then the
graph stage when `use_graph`, then inference, then evaluation when
`evaluate`. -/
def enabledStages (ug ev : Bool) : List Ev :=
  [Ev.stageExtraction] ++ (if ug then [Ev.stageGraph] else []) ++
    [Ev.stageInference] ++ (if ev then [Ev.stageEvaluation] else [])

/-- The LLM response is truthy and the code extracted from it is truthy. -/
def extractedTruthy (env : PBEnv) : Bool :=
  match env.generate with
  | some resp =>
    resp != "" &&
      (match extract_code_from_response (some resp) with
       | some c => c != ""
       | none => false)
  | none => false

theorem graphStage_cases (bug : String) (env : PBEnv) (ug : Bool) :
    (ug = false ∧ graphStage bug env ug = .ok (pbR1 bug, [Ev.stageExtraction])) ∨
    (ug = true ∧
      ((∃ e, graphStage bug env ug = .error (e, pbR1 bug, [Ev.stageExtraction])) ∨
        graphStage bug env ug = .ok ({ pbR1 bug with stGraph := true },
          [Ev.stageExtraction, Ev.wrote (ArtifactPath.graphText bug), Ev.stageGraph]))) := by
  cases ug with
  | false => exact Or.inl ⟨rfl, rfl⟩
  | true =>
    refine Or.inr ⟨rfl, ?_⟩
    cases hbg : env.buildGraph with
    | error e => exact Or.inl ⟨e, by simp [graphStage, hbg]⟩
    | ok _ =>
      cases hgi : env.extractGraphInfo with
      | error e => exact Or.inl ⟨e, by simp [graphStage, hbg, hgi]⟩
      | ok _ =>
        cases hwg : env.writeGraphText with
        | error e => exact Or.inl ⟨e, by simp [graphStage, hbg, hgi, hwg]⟩
        | ok _ => exact Or.inr (by simp [graphStage, hbg, hgi, hwg])

theorem evalStage_cases (env : PBEnv) (ev : Bool) (r0 : PBResult) (t0 : List Ev) :
    (ev = false ∧ evalStage env ev r0 t0 = .ok ({ r0 with success := true }, t0)) ∨
    (ev = true ∧ ∃ e, evalStage env ev r0 t0 = .error (e, r0, t0)) ∨
    (ev = true ∧ (∃ succ ff, env.integrate = .ok (succ, ff) ∧
        (succ && pyTruthy ff) = false) ∧
      evalStage env ev r0 t0 = .ok (r0, t0)) ∨
    (ev = true ∧ (∃ succ ff, env.integrate = .ok (succ, ff) ∧
        (succ && pyTruthy ff) = true) ∧
      ∃ er, env.evalFix = .ok er ∧
      evalStage env ev r0 t0 =
        .ok ({ r0 with stEvaluation := true, evaluation := some er, success := true },
          t0 ++ [Ev.stageEvaluation])) := by
  cases ev with
  | false => exact Or.inl ⟨rfl, rfl⟩
  | true =>
    refine Or.inr ?_
    cases hi : env.integrate with
    | error e => exact Or.inl ⟨rfl, e, by simp [evalStage, hi]⟩
    | ok p =>
      obtain ⟨succ, ff⟩ := p
      cases hc : succ && pyTruthy ff with
      | false =>
        exact Or.inr (Or.inl ⟨rfl, ⟨succ, ff, rfl, hc⟩, by simp [evalStage, hi, hc]⟩)
      | true =>
        cases hef : env.evalFix with
        | error e =>
          exact Or.inl ⟨rfl, e, by simp [evalStage, hi, hc, hef]⟩
        | ok er =>
          exact Or.inr (Or.inr ⟨rfl, ⟨succ, ff, rfl, hc⟩, er, rfl, by simp [evalStage, hi, hc, hef]⟩)

theorem promptAndInference_cases (bug : String) (env : PBEnv) (ev : Bool)
    (mt : String) (r0 : PBResult) (t0 : List Ev) :
    (∃ e, promptAndInference bug env ev mt r0 t0 = .error (e, r0, t0)) ∨
    (∃ e, promptAndInference bug env ev mt r0 t0 =
      .error (e, r0, t0 ++ [Ev.wrote (ArtifactPath.promptJson bug)])) ∨
    ((env.generate = none ∨ env.generate = some "") ∧
      promptAndInference bug env ev mt r0 t0 =
        .ok (r0, t0 ++ [Ev.wrote (ArtifactPath.promptJson bug), Ev.llmCalled])) ∨
    ((∃ e, env.writeResponse = .error e) ∧
      (∃ resp, env.generate = some resp ∧ resp ≠ "") ∧
      ∃ e, promptAndInference bug env ev mt r0 t0 =
        .error (e, r0, t0 ++ [Ev.wrote (ArtifactPath.promptJson bug), Ev.llmCalled])) ∨
    ((∃ resp, env.generate = some resp ∧ resp ≠ "" ∧
        (extract_code_from_response (some resp) = none ∨
         extract_code_from_response (some resp) = some "")) ∧
      promptAndInference bug env ev mt r0 t0 =
        .ok (r0, t0 ++ [Ev.wrote (ArtifactPath.promptJson bug), Ev.llmCalled,
          Ev.wrote (ArtifactPath.responseTxt bug)])) ∨
    ((∃ resp code, env.generate = some resp ∧ resp ≠ "" ∧
        extract_code_from_response (some resp) = some code ∧ code ≠ "") ∧
      (((∃ e, env.writeCode = .error e) ∧
        ∃ e, promptAndInference bug env ev mt r0 t0 =
          .error (e, r0, t0 ++ [Ev.wrote (ArtifactPath.promptJson bug), Ev.llmCalled,
            Ev.wrote (ArtifactPath.responseTxt bug)])) ∨
        promptAndInference bug env ev mt r0 t0 =
          evalStage env ev { r0 with stInference := true }
            (t0 ++ [Ev.wrote (ArtifactPath.promptJson bug), Ev.llmCalled,
              Ev.wrote (ArtifactPath.responseTxt bug),
              Ev.wrote (ArtifactPath.codeJava bug), Ev.stageInference]))) := by
  cases hpb : (if mt = "openai" ∨ mt = "anthropic"
      then env.buildMessages else env.buildText) with
  | error e => exact Or.inl ⟨e, by simp [promptAndInference, hpb]⟩
  | ok _ =>
    cases hwp : env.writePrompt with
    | error e =>
      exact Or.inl ⟨e, by simp [promptAndInference, hpb, hwp]⟩
    | ok _ =>
      cases hli : env.llmInit with
      | error e =>
        exact Or.inr (Or.inl ⟨e, by simp [promptAndInference, hpb, hwp, hli]⟩)
      | ok _ =>
        cases hg : env.generate with
        | none =>
          exact Or.inr (Or.inr (Or.inl ⟨Or.inl rfl,
            by simp [promptAndInference, hpb, hwp, hli, hg]⟩))
        | some resp =>
          by_cases hre : resp = ""
          · subst hre
            exact Or.inr (Or.inr (Or.inl ⟨Or.inr rfl,
              by simp [promptAndInference, hpb, hwp, hli, hg]⟩))
          · cases hwr : env.writeResponse with
            | error e =>
              exact Or.inr (Or.inr (Or.inr (Or.inl ⟨⟨e, rfl⟩, ⟨resp, rfl, hre⟩, e,
                by simp [promptAndInference, hpb, hwp, hli, hg, hre, hwr]⟩)))
            | ok _ =>
              cases hex : extract_code_from_response (some resp) with
              | none =>
                exact Or.inr (Or.inr (Or.inr (Or.inr (Or.inl
                  ⟨⟨resp, rfl, hre, Or.inl hex⟩,
                   by simp [promptAndInference, hpb, hwp, hli, hg, hre, hwr, hex]⟩))))
              | some code =>
                by_cases hce : code = ""
                · subst hce
                  exact Or.inr (Or.inr (Or.inr (Or.inr (Or.inl
                    ⟨⟨resp, rfl, hre, Or.inr hex⟩,
                     by simp [promptAndInference, hpb, hwp, hli, hg, hre, hwr, hex]⟩))))
                · cases hwc : env.writeCode with
                  | error e =>
                    exact Or.inr (Or.inr (Or.inr (Or.inr (Or.inr
                      ⟨⟨resp, code, rfl, hre, hex, hce⟩, Or.inl ⟨⟨e, rfl⟩, e,
                       by simp [promptAndInference, hpb, hwp, hli, hg, hre, hwr,
                         hex, hce, hwc]⟩⟩))))
                  | ok _ =>
                    exact Or.inr (Or.inr (Or.inr (Or.inr (Or.inr
                      ⟨⟨resp, code, rfl, hre, hex, hce⟩, Or.inr
                       (by simp [promptAndInference, hpb, hwp, hli, hg, hre, hwr,
                         hex, hce, hwc])⟩))))

/-- The result right after `result["stages"]["graph_building"] = True`. -/
def pbR2 (bug : String) : PBResult := { pbR1 bug with stGraph := true }

/-- The two possible outcomes of the (optional) graph stage. -/
def graphShape (bug : String) (ug : Bool) (rg : PBResult) (tg : List Ev) : Prop :=
  (ug = false ∧ rg = pbR1 bug ∧ tg = [Ev.stageExtraction]) ∨
  (ug = true ∧ rg = pbR2 bug ∧
    tg = [Ev.stageExtraction, Ev.wrote (ArtifactPath.graphText bug), Ev.stageGraph])

/-- Outcome analysis of `process_bug` from the prompt stage on, given the
result `rg` and trace `tg` left by the extraction and graph stages. -/
theorem process_bug_spec_tail (bug : String) (env : PBEnv) (ug ev : Bool)
    (mt : String) (rg : PBResult) (tg : List Ev)
    (hbody : process_bug_body bug env ug ev mt = promptAndInference bug env ev mt rg tg) :
    ((∃ e, process_bug_body bug env ug ev mt = .error (e, rg, tg)) ∧
        process_bug bug env ug ev mt = (rg, tg)) ∨
    ((∃ e, process_bug_body bug env ug ev mt =
          .error (e, rg, tg ++ [Ev.wrote (ArtifactPath.promptJson bug)])) ∧
        process_bug bug env ug ev mt =
          (rg, tg ++ [Ev.wrote (ArtifactPath.promptJson bug)])) ∨
    ((env.generate = none ∨ env.generate = some "") ∧
        process_bug_body bug env ug ev mt =
          .ok (rg, tg ++ [Ev.wrote (ArtifactPath.promptJson bug), Ev.llmCalled]) ∧
        process_bug bug env ug ev mt =
          (rg, tg ++ [Ev.wrote (ArtifactPath.promptJson bug), Ev.llmCalled])) ∨
    ((∃ e, env.writeResponse = .error e) ∧
        (∃ resp, env.generate = some resp ∧ resp ≠ "") ∧
        (∃ e, process_bug_body bug env ug ev mt =
          .error (e, rg, tg ++ [Ev.wrote (ArtifactPath.promptJson bug), Ev.llmCalled])) ∧
        process_bug bug env ug ev mt =
          (rg, tg ++ [Ev.wrote (ArtifactPath.promptJson bug), Ev.llmCalled])) ∨
    ((∃ resp, env.generate = some resp ∧ resp ≠ "" ∧
          (extract_code_from_response (some resp) = none ∨
           extract_code_from_response (some resp) = some "")) ∧
        process_bug_body bug env ug ev mt =
          .ok (rg, tg ++ [Ev.wrote (ArtifactPath.promptJson bug), Ev.llmCalled,
            Ev.wrote (ArtifactPath.responseTxt bug)]) ∧
        process_bug bug env ug ev mt =
          (rg, tg ++ [Ev.wrote (ArtifactPath.promptJson bug), Ev.llmCalled,
            Ev.wrote (ArtifactPath.responseTxt bug)])) ∨
    ((∃ resp code, env.generate = some resp ∧ resp ≠ "" ∧
          extract_code_from_response (some resp) = some code ∧ code ≠ "") ∧
        (((∃ e, env.writeCode = .error e) ∧
          (∃ e, process_bug_body bug env ug ev mt =
            .error (e, rg, tg ++ [Ev.wrote (ArtifactPath.promptJson bug), Ev.llmCalled,
              Ev.wrote (ArtifactPath.responseTxt bug)])) ∧
          process_bug bug env ug ev mt =
            (rg, tg ++ [Ev.wrote (ArtifactPath.promptJson bug), Ev.llmCalled,
              Ev.wrote (ArtifactPath.responseTxt bug)])) ∨
         (ev = false ∧
            process_bug_body bug env ug ev mt =
              .ok ({ rg with stInference := true, success := true },
                tg ++ [Ev.wrote (ArtifactPath.promptJson bug), Ev.llmCalled,
                  Ev.wrote (ArtifactPath.responseTxt bug),
                  Ev.wrote (ArtifactPath.codeJava bug), Ev.stageInference]) ∧
            process_bug bug env ug ev mt =
              ({ rg with stInference := true, success := true },
                tg ++ [Ev.wrote (ArtifactPath.promptJson bug), Ev.llmCalled,
                  Ev.wrote (ArtifactPath.responseTxt bug),
                  Ev.wrote (ArtifactPath.codeJava bug), Ev.stageInference])) ∨
         (ev = true ∧
            (∃ e, process_bug_body bug env ug ev mt =
              .error (e, { rg with stInference := true },
                tg ++ [Ev.wrote (ArtifactPath.promptJson bug), Ev.llmCalled,
                  Ev.wrote (ArtifactPath.responseTxt bug),
                  Ev.wrote (ArtifactPath.codeJava bug), Ev.stageInference])) ∧
            process_bug bug env ug ev mt =
              ({ rg with stInference := true },
                tg ++ [Ev.wrote (ArtifactPath.promptJson bug), Ev.llmCalled,
                  Ev.wrote (ArtifactPath.responseTxt bug),
                  Ev.wrote (ArtifactPath.codeJava bug), Ev.stageInference])) ∨
         (ev = true ∧
            (∃ succ ff, env.integrate = .ok (succ, ff) ∧
              (succ && pyTruthy ff) = false) ∧
            process_bug_body bug env ug ev mt =
              .ok ({ rg with stInference := true },
                tg ++ [Ev.wrote (ArtifactPath.promptJson bug), Ev.llmCalled,
                  Ev.wrote (ArtifactPath.responseTxt bug),
                  Ev.wrote (ArtifactPath.codeJava bug), Ev.stageInference]) ∧
            process_bug bug env ug ev mt =
              ({ rg with stInference := true },
                tg ++ [Ev.wrote (ArtifactPath.promptJson bug), Ev.llmCalled,
                  Ev.wrote (ArtifactPath.responseTxt bug),
                  Ev.wrote (ArtifactPath.codeJava bug), Ev.stageInference])) ∨
         (ev = true ∧
            (∃ succ ff, env.integrate = .ok (succ, ff) ∧
              (succ && pyTruthy ff) = true) ∧
            ∃ er, env.evalFix = .ok er ∧
              process_bug_body bug env ug ev mt =
                .ok ({ rg with
                    stInference := true, stEvaluation := true,
                    evaluation := some er, success := true },
                  tg ++ [Ev.wrote (ArtifactPath.promptJson bug), Ev.llmCalled,
                    Ev.wrote (ArtifactPath.responseTxt bug),
                    Ev.wrote (ArtifactPath.codeJava bug), Ev.stageInference,
                    Ev.stageEvaluation]) ∧
              process_bug bug env ug ev mt =
                ({ rg with
                    stInference := true, stEvaluation := true,
                    evaluation := some er, success := true },
                  tg ++ [Ev.wrote (ArtifactPath.promptJson bug), Ev.llmCalled,
                    Ev.wrote (ArtifactPath.responseTxt bug),
                    Ev.wrote (ArtifactPath.codeJava bug), Ev.stageInference,
                    Ev.stageEvaluation])))) := by
  rcases promptAndInference_cases bug env ev mt rg tg with
    ⟨e, hp⟩ | ⟨e, hp⟩ | ⟨hgen, hp⟩ | ⟨hwr, hres, e, hp⟩ | ⟨hres, hp⟩ |
    ⟨hres, ⟨hwc, e, hp⟩ | hp⟩
  · exact Or.inl ⟨⟨e, hbody.trans hp⟩, by simp [process_bug, hbody.trans hp]⟩
  · exact Or.inr (Or.inl ⟨⟨e, hbody.trans hp⟩,
      by simp [process_bug, hbody.trans hp]⟩)
  · exact Or.inr (Or.inr (Or.inl ⟨hgen, hbody.trans hp,
      by simp [process_bug, hbody.trans hp]⟩))
  · exact Or.inr (Or.inr (Or.inr (Or.inl ⟨hwr, hres, ⟨e, hbody.trans hp⟩,
      by simp [process_bug, hbody.trans hp]⟩)))
  · exact Or.inr (Or.inr (Or.inr (Or.inr (Or.inl ⟨hres, hbody.trans hp,
      by simp [process_bug, hbody.trans hp]⟩))))
  · exact Or.inr (Or.inr (Or.inr (Or.inr (Or.inr ⟨hres,
      Or.inl ⟨hwc, ⟨e, hbody.trans hp⟩, by simp [process_bug, hbody.trans hp]⟩⟩))))
  · have hbody2 := hbody.trans hp
    rcases evalStage_cases env ev { rg with stInference := true }
        (tg ++ [Ev.wrote (ArtifactPath.promptJson bug), Ev.llmCalled,
          Ev.wrote (ArtifactPath.responseTxt bug),
          Ev.wrote (ArtifactPath.codeJava bug), Ev.stageInference]) with
      ⟨hev, hes⟩ | ⟨hev, e, hes⟩ | ⟨hev, hint, hes⟩ | ⟨hev, hint, er, hef, hes⟩
    · exact Or.inr (Or.inr (Or.inr (Or.inr (Or.inr ⟨hres,
        Or.inr (Or.inl ⟨hev, hbody2.trans hes,
          by simp [process_bug, hbody2.trans hes]⟩)⟩))))
    · exact Or.inr (Or.inr (Or.inr (Or.inr (Or.inr ⟨hres,
        Or.inr (Or.inr (Or.inl ⟨hev, ⟨e, hbody2.trans hes⟩,
          by simp [process_bug, hbody2.trans hes]⟩))⟩))))
    · exact Or.inr (Or.inr (Or.inr (Or.inr (Or.inr ⟨hres,
        Or.inr (Or.inr (Or.inr (Or.inl ⟨hev, hint, hbody2.trans hes,
          by simp [process_bug, hbody2.trans hes]⟩)))⟩))))
    · refine Or.inr (Or.inr (Or.inr (Or.inr (Or.inr ⟨hres,
        Or.inr (Or.inr (Or.inr (Or.inr ⟨hev, hint, er, hef, ?_, ?_⟩)))⟩))))
      · rw [hbody2.trans hes]
        simp
      · have hx := hbody2.trans hes
        simp only [process_bug, hx]
        simp

/-- Exhaustive outcome analysis of one `process_bug` run: every run falls
into one of the listed shapes (early return on missing extraction, caught
exception, early return at one of the gates, or completion), each with its
exact partial result and event trace. -/
theorem process_bug_spec (bug : String) (env : PBEnv) (ug ev : Bool) (mt : String) :
    (env.extraction = .ok none ∧
      process_bug_body bug env ug ev mt = .ok (pbInit bug, []) ∧
      process_bug bug env ug ev mt = (pbInit bug, [])) ∨
    ((∃ e, env.extraction = .error e) ∧
      (∃ e, process_bug_body bug env ug ev mt = .error (e, pbInit bug, [])) ∧
      process_bug bug env ug ev mt = (pbInit bug, [])) ∨
    ((∃ u, env.extraction = .ok (some u)) ∧ ug = true ∧
      (∃ e, process_bug_body bug env ug ev mt =
        .error (e, pbR1 bug, [Ev.stageExtraction])) ∧
      process_bug bug env ug ev mt = (pbR1 bug, [Ev.stageExtraction])) ∨
    ((∃ u, env.extraction = .ok (some u)) ∧ ∃ rg tg, graphShape bug ug rg tg ∧
      (((∃ e, process_bug_body bug env ug ev mt = .error (e, rg, tg)) ∧
          process_bug bug env ug ev mt = (rg, tg)) ∨
       ((∃ e, process_bug_body bug env ug ev mt =
            .error (e, rg, tg ++ [Ev.wrote (ArtifactPath.promptJson bug)])) ∧
          process_bug bug env ug ev mt =
            (rg, tg ++ [Ev.wrote (ArtifactPath.promptJson bug)])) ∨
       ((env.generate = none ∨ env.generate = some "") ∧
          process_bug_body bug env ug ev mt =
            .ok (rg, tg ++ [Ev.wrote (ArtifactPath.promptJson bug), Ev.llmCalled]) ∧
          process_bug bug env ug ev mt =
            (rg, tg ++ [Ev.wrote (ArtifactPath.promptJson bug), Ev.llmCalled])) ∨
       ((∃ e, env.writeResponse = .error e) ∧
          (∃ resp, env.generate = some resp ∧ resp ≠ "") ∧
          (∃ e, process_bug_body bug env ug ev mt =
            .error (e, rg, tg ++ [Ev.wrote (ArtifactPath.promptJson bug), Ev.llmCalled])) ∧
          process_bug bug env ug ev mt =
            (rg, tg ++ [Ev.wrote (ArtifactPath.promptJson bug), Ev.llmCalled])) ∨
       ((∃ resp, env.generate = some resp ∧ resp ≠ "" ∧
            (extract_code_from_response (some resp) = none ∨
             extract_code_from_response (some resp) = some "")) ∧
          process_bug_body bug env ug ev mt =
            .ok (rg, tg ++ [Ev.wrote (ArtifactPath.promptJson bug), Ev.llmCalled,
              Ev.wrote (ArtifactPath.responseTxt bug)]) ∧
          process_bug bug env ug ev mt =
            (rg, tg ++ [Ev.wrote (ArtifactPath.promptJson bug), Ev.llmCalled,
              Ev.wrote (ArtifactPath.responseTxt bug)])) ∨
       ((∃ resp code, env.generate = some resp ∧ resp ≠ "" ∧
            extract_code_from_response (some resp) = some code ∧ code ≠ "") ∧
          (((∃ e, env.writeCode = .error e) ∧
            (∃ e, process_bug_body bug env ug ev mt =
              .error (e, rg, tg ++ [Ev.wrote (ArtifactPath.promptJson bug), Ev.llmCalled,
                Ev.wrote (ArtifactPath.responseTxt bug)])) ∧
            process_bug bug env ug ev mt =
              (rg, tg ++ [Ev.wrote (ArtifactPath.promptJson bug), Ev.llmCalled,
                Ev.wrote (ArtifactPath.responseTxt bug)])) ∨
           (ev = false ∧
              process_bug_body bug env ug ev mt =
                .ok ({ rg with stInference := true, success := true },
                  tg ++ [Ev.wrote (ArtifactPath.promptJson bug), Ev.llmCalled,
                    Ev.wrote (ArtifactPath.responseTxt bug),
                    Ev.wrote (ArtifactPath.codeJava bug), Ev.stageInference]) ∧
              process_bug bug env ug ev mt =
                ({ rg with stInference := true, success := true },
                  tg ++ [Ev.wrote (ArtifactPath.promptJson bug), Ev.llmCalled,
                    Ev.wrote (ArtifactPath.responseTxt bug),
                    Ev.wrote (ArtifactPath.codeJava bug), Ev.stageInference])) ∨
           (ev = true ∧
              (∃ e, process_bug_body bug env ug ev mt =
                .error (e, { rg with stInference := true },
                  tg ++ [Ev.wrote (ArtifactPath.promptJson bug), Ev.llmCalled,
                    Ev.wrote (ArtifactPath.responseTxt bug),
                    Ev.wrote (ArtifactPath.codeJava bug), Ev.stageInference])) ∧
              process_bug bug env ug ev mt =
                ({ rg with stInference := true },
                  tg ++ [Ev.wrote (ArtifactPath.promptJson bug), Ev.llmCalled,
                    Ev.wrote (ArtifactPath.responseTxt bug),
                    Ev.wrote (ArtifactPath.codeJava bug), Ev.stageInference])) ∨
           (ev = true ∧
              (∃ succ ff, env.integrate = .ok (succ, ff) ∧
                (succ && pyTruthy ff) = false) ∧
              process_bug_body bug env ug ev mt =
                .ok ({ rg with stInference := true },
                  tg ++ [Ev.wrote (ArtifactPath.promptJson bug), Ev.llmCalled,
                    Ev.wrote (ArtifactPath.responseTxt bug),
                    Ev.wrote (ArtifactPath.codeJava bug), Ev.stageInference]) ∧
              process_bug bug env ug ev mt =
                ({ rg with stInference := true },
                  tg ++ [Ev.wrote (ArtifactPath.promptJson bug), Ev.llmCalled,
                    Ev.wrote (ArtifactPath.responseTxt bug),
                    Ev.wrote (ArtifactPath.codeJava bug), Ev.stageInference])) ∨
           (ev = true ∧
              (∃ succ ff, env.integrate = .ok (succ, ff) ∧
                (succ && pyTruthy ff) = true) ∧
              ∃ er, env.evalFix = .ok er ∧
                process_bug_body bug env ug ev mt =
                  .ok ({ rg with
                      stInference := true, stEvaluation := true,
                      evaluation := some er, success := true },
                    tg ++ [Ev.wrote (ArtifactPath.promptJson bug), Ev.llmCalled,
                      Ev.wrote (ArtifactPath.responseTxt bug),
                      Ev.wrote (ArtifactPath.codeJava bug), Ev.stageInference,
                      Ev.stageEvaluation]) ∧
                process_bug bug env ug ev mt =
                  ({ rg with
                      stInference := true, stEvaluation := true,
                      evaluation := some er, success := true },
                    tg ++ [Ev.wrote (ArtifactPath.promptJson bug), Ev.llmCalled,
                      Ev.wrote (ArtifactPath.responseTxt bug),
                      Ev.wrote (ArtifactPath.codeJava bug), Ev.stageInference,
                      Ev.stageEvaluation])))))) := by
  cases hext : env.extraction with
  | error e =>
    exact Or.inr (Or.inl ⟨⟨e, rfl⟩, ⟨e, by simp [process_bug_body, hext]⟩,
      by simp [process_bug, process_bug_body, hext]⟩)
  | ok o =>
    cases o with
    | none =>
      exact Or.inl ⟨rfl, by simp [process_bug_body, hext],
        by simp [process_bug, process_bug_body, hext]⟩
    | some u =>
      have hbody : process_bug_body bug env ug ev mt =
          match graphStage bug env ug with
          | .error x => .error x
          | .ok (r, t) => promptAndInference bug env ev mt r t := by
        simp [process_bug_body, hext]
      rcases graphStage_cases bug env ug with ⟨hug, hgs⟩ | ⟨hug, ⟨e, hgs⟩ | hgs⟩
      · rw [hgs] at hbody
        exact Or.inr (Or.inr (Or.inr ⟨⟨u, rfl⟩, pbR1 bug, [Ev.stageExtraction],
          Or.inl ⟨hug, rfl, rfl⟩,
          process_bug_spec_tail bug env ug ev mt (pbR1 bug) [Ev.stageExtraction] hbody⟩))
      · rw [hgs] at hbody
        exact Or.inr (Or.inr (Or.inl ⟨⟨u, rfl⟩, hug, ⟨e, hbody⟩,
          by simp [process_bug, hbody]⟩))
      · rw [hgs] at hbody
        exact Or.inr (Or.inr (Or.inr ⟨⟨u, rfl⟩, pbR2 bug,
          [Ev.stageExtraction, Ev.wrote (ArtifactPath.graphText bug), Ev.stageGraph],
          Or.inr ⟨hug, rfl, rfl⟩,
          process_bug_spec_tail bug env ug ev mt (pbR2 bug)
            [Ev.stageExtraction, Ev.wrote (ArtifactPath.graphText bug), Ev.stageGraph]
            hbody⟩))

/-- C1: `process_bug` runs the pipeline stages in the fixed order
extraction, graph (only when `use_graph`), inference, evaluation (only when
`evaluate`): the completed-stage trace is always a prefix of the enabled
stage list; `success = True` exactly when every enabled stage completed;
and each gate (empty extraction, empty LLM response, no code extracted from
the response, failed integration) makes `process_bug` return immediately
with `success = False`. -/
theorem C1_process_bug (bug : String) (env : PBEnv) (ug ev : Bool) (mt : String) :
    (stageTags (process_bug bug env ug ev mt).2).isPrefixOf (enabledStages ug ev) = true ∧
    ((process_bug bug env ug ev mt).1.success = true ↔
      stageTags (process_bug bug env ug ev mt).2 = enabledStages ug ev) ∧
    ((process_bug bug env ug ev mt).1.success = true →
      (process_bug bug env ug ev mt).1.stExtraction = true ∧
      (ug = true → (process_bug bug env ug ev mt).1.stGraph = true) ∧
      (process_bug bug env ug ev mt).1.stInference = true ∧
      (ev = true → (process_bug bug env ug ev mt).1.stEvaluation = true)) ∧
    (env.extraction = .ok none → process_bug bug env ug ev mt = (pbInit bug, [])) ∧
    ((env.generate = none ∨ env.generate = some "") →
      (process_bug bug env ug ev mt).1.success = false ∧
      (process_bug bug env ug ev mt).1.stInference = false) ∧
    (∀ resp, env.generate = some resp → resp ≠ "" →
      (extract_code_from_response (some resp) = none ∨
       extract_code_from_response (some resp) = some "") →
      (process_bug bug env ug ev mt).1.success = false ∧
      (process_bug bug env ug ev mt).1.stInference = false) ∧
    (ev = true → ∀ succ ff, env.integrate = .ok (succ, ff) →
      (succ && pyTruthy ff) = false →
      (process_bug bug env ug ev mt).1.success = false ∧
      (process_bug bug env ug ev mt).1.stEvaluation = false) := by
  rcases process_bug_spec bug env ug ev mt with
    ⟨hx, -, hpb⟩ | ⟨⟨e0, hx⟩, -, hpb⟩ | ⟨⟨u, hx⟩, hug, -, hpb⟩ |
    ⟨⟨u, hx⟩, rg, tg, hshape, hcase⟩
  · rw [hpb]
    refine ⟨?_, ?_, ?_, fun _ => rfl, fun _ => ⟨rfl, rfl⟩, fun _ _ _ _ => ⟨rfl, rfl⟩,
      fun _ _ _ _ _ => ⟨rfl, rfl⟩⟩
    · first
      | rfl
      | (cases ev <;> rfl)
      | (cases ug <;> cases ev <;> rfl)
    · constructor
      · intro h
        simp [pbInit] at h
      · intro h
        first
        | simp +decide [stageTags, enabledStages] at h
        | (cases ev <;> simp +decide [stageTags, enabledStages] at h)
        | (cases ug <;> cases ev <;> simp +decide [stageTags, enabledStages] at h)
    · intro h
      simp [pbInit] at h
  · rw [hpb]
    refine ⟨?_, ?_, ?_, ?_, fun _ => ⟨rfl, rfl⟩, fun _ _ _ _ => ⟨rfl, rfl⟩,
      fun _ _ _ _ _ => ⟨rfl, rfl⟩⟩
    · first
      | rfl
      | (cases ev <;> rfl)
      | (cases ug <;> cases ev <;> rfl)
    · constructor
      · intro h
        simp [pbInit] at h
      · intro h
        first
        | simp +decide [stageTags, enabledStages] at h
        | (cases ev <;> simp +decide [stageTags, enabledStages] at h)
        | (cases ug <;> cases ev <;> simp +decide [stageTags, enabledStages] at h)
    · intro h
      simp [pbInit] at h
    · intro h
      simp [hx] at h
  · subst hug
    rw [hpb]
    refine ⟨?_, ?_, ?_, ?_, fun _ => ⟨rfl, rfl⟩, fun _ _ _ _ => ⟨rfl, rfl⟩,
      fun _ _ _ _ _ => ⟨rfl, rfl⟩⟩
    · first
      | rfl
      | (cases ev <;> rfl)
      | (cases ug <;> cases ev <;> rfl)
    · constructor
      · intro h
        simp [pbInit, pbR1, pbR2] at h
      · intro h
        first
        | simp +decide [stageTags, enabledStages] at h
        | (cases ev <;> simp +decide [stageTags, enabledStages] at h)
        | (cases ug <;> cases ev <;> simp +decide [stageTags, enabledStages] at h)
    · intro h
      simp [pbInit, pbR1, pbR2] at h
    · intro h
      simp [hx] at h
  · rcases hshape with ⟨hug, hrg, htg⟩ | ⟨hug, hrg, htg⟩
    · subst hug
      subst hrg
      subst htg
      rcases hcase with ⟨-, hpb⟩ | ⟨-, hpb⟩ | ⟨hgen, -, hpb⟩ |
        ⟨-, ⟨resp, hgen, hre⟩, -, hpb⟩ | ⟨⟨resp, hgen, hre, hexf⟩, -, hpb⟩ |
        ⟨⟨resp, code, hgen, hre, hex, hce⟩, hfin⟩
      · rw [hpb]
        refine ⟨?_, ?_, ?_, ?_, fun _ => ⟨rfl, rfl⟩, fun _ _ _ _ => ⟨rfl, rfl⟩,
          fun _ _ _ _ _ => ⟨rfl, rfl⟩⟩
        · first
          | rfl
          | (cases ev <;> rfl)
          | (cases ug <;> cases ev <;> rfl)
        · constructor
          · intro h
            simp [pbInit, pbR1, pbR2] at h
          · intro h
            first
            | simp +decide [stageTags, enabledStages] at h
            | (cases ev <;> simp +decide [stageTags, enabledStages] at h)
            | (cases ug <;> cases ev <;> simp +decide [stageTags, enabledStages] at h)
        · intro h
          simp [pbInit, pbR1, pbR2] at h
        · intro h
          rw [hx] at h
          simp at h
      · rw [hpb]
        refine ⟨?_, ?_, ?_, ?_, fun _ => ⟨rfl, rfl⟩, fun _ _ _ _ => ⟨rfl, rfl⟩,
          fun _ _ _ _ _ => ⟨rfl, rfl⟩⟩
        · first
          | rfl
          | (cases ev <;> rfl)
          | (cases ug <;> cases ev <;> rfl)
        · constructor
          · intro h
            simp [pbInit, pbR1, pbR2] at h
          · intro h
            first
            | simp +decide [stageTags, enabledStages] at h
            | (cases ev <;> simp +decide [stageTags, enabledStages] at h)
            | (cases ug <;> cases ev <;> simp +decide [stageTags, enabledStages] at h)
        · intro h
          simp [pbInit, pbR1, pbR2] at h
        · intro h
          rw [hx] at h
          simp at h
      · rw [hpb]
        refine ⟨?_, ?_, ?_, ?_, fun _ => ⟨rfl, rfl⟩, fun _ _ _ _ => ⟨rfl, rfl⟩,
          fun _ _ _ _ _ => ⟨rfl, rfl⟩⟩
        · first
          | rfl
          | (cases ev <;> rfl)
          | (cases ug <;> cases ev <;> rfl)
        · constructor
          · intro h
            simp [pbInit, pbR1, pbR2] at h
          · intro h
            first
            | simp +decide [stageTags, enabledStages] at h
            | (cases ev <;> simp +decide [stageTags, enabledStages] at h)
            | (cases ug <;> cases ev <;> simp +decide [stageTags, enabledStages] at h)
        · intro h
          simp [pbInit, pbR1, pbR2] at h
        · intro h
          rw [hx] at h
          simp at h
      · rw [hpb]
        refine ⟨?_, ?_, ?_, ?_, fun _ => ⟨rfl, rfl⟩, fun _ _ _ _ => ⟨rfl, rfl⟩,
          fun _ _ _ _ _ => ⟨rfl, rfl⟩⟩
        · first
          | rfl
          | (cases ev <;> rfl)
          | (cases ug <;> cases ev <;> rfl)
        · constructor
          · intro h
            simp [pbInit, pbR1, pbR2] at h
          · intro h
            first
            | simp +decide [stageTags, enabledStages] at h
            | (cases ev <;> simp +decide [stageTags, enabledStages] at h)
            | (cases ug <;> cases ev <;> simp +decide [stageTags, enabledStages] at h)
        · intro h
          simp [pbInit, pbR1, pbR2] at h
        · intro h
          rw [hx] at h
          simp at h
      · rw [hpb]
        refine ⟨?_, ?_, ?_, ?_, fun _ => ⟨rfl, rfl⟩, fun _ _ _ _ => ⟨rfl, rfl⟩,
          fun _ _ _ _ _ => ⟨rfl, rfl⟩⟩
        · first
          | rfl
          | (cases ev <;> rfl)
          | (cases ug <;> cases ev <;> rfl)
        · constructor
          · intro h
            simp [pbInit, pbR1, pbR2] at h
          · intro h
            first
            | simp +decide [stageTags, enabledStages] at h
            | (cases ev <;> simp +decide [stageTags, enabledStages] at h)
            | (cases ug <;> cases ev <;> simp +decide [stageTags, enabledStages] at h)
        · intro h
          simp [pbInit, pbR1, pbR2] at h
        · intro h
          rw [hx] at h
          simp at h
      · rcases hfin with ⟨-, -, hpb⟩ | ⟨hev, -, hpb⟩ | ⟨hev, -, hpb⟩ |
          ⟨hev, ⟨succ, ff, hint, hcond⟩, -, hpb⟩ |
          ⟨hev, ⟨succ, ff, hint, hcond⟩, er, hef, -, hpb⟩
        · rw [hpb]
          refine ⟨?_, ?_, ?_, ?_, fun _ => ⟨rfl, rfl⟩, fun _ _ _ _ => ⟨rfl, rfl⟩,
            fun _ _ _ _ _ => ⟨rfl, rfl⟩⟩
          · first
            | rfl
            | (cases ev <;> rfl)
            | (cases ug <;> cases ev <;> rfl)
          · constructor
            · intro h
              simp [pbInit, pbR1, pbR2] at h
            · intro h
              first
              | simp +decide [stageTags, enabledStages] at h
              | (cases ev <;> simp +decide [stageTags, enabledStages] at h)
              | (cases ug <;> cases ev <;> simp +decide [stageTags, enabledStages] at h)
          · intro h
            simp [pbInit, pbR1, pbR2] at h
          · intro h
            rw [hx] at h
            simp at h
        · subst hev
          rw [hpb]
          refine ⟨?_, Iff.intro (fun _ => rfl) (fun _ => rfl),
            fun _ => ⟨rfl, ?_, rfl, fun h => Bool.noConfusion h⟩, ?_, ?_, ?_,
            fun h => Bool.noConfusion h⟩
          · first
            | rfl
            | (cases ev <;> rfl)
            | (cases ug <;> cases ev <;> rfl)
          · first
            | exact fun _ => rfl
            | exact fun h => Bool.noConfusion h
          · intro h
            rw [hx] at h
            simp at h
          · intro h
            rcases h with h | h
            · rw [hgen] at h
              exact Option.noConfusion h
            · rw [hgen] at h
              rw [Option.some_inj] at h
              exact absurd h hre
          · intro resp2 h1 h2 h3
            rw [hgen] at h1
            rw [Option.some_inj] at h1
            subst h1
            rcases h3 with h3 | h3
            · rw [hex] at h3
              exact Option.noConfusion h3
            · rw [hex] at h3
              rw [Option.some_inj] at h3
              exact absurd h3 hce
        · subst hev
          rw [hpb]
          refine ⟨?_, ?_, ?_, ?_, ?_, ?_, fun _ _ _ _ _ => ⟨rfl, rfl⟩⟩
          · first
            | rfl
            | (cases ev <;> rfl)
            | (cases ug <;> cases ev <;> rfl)
          · constructor
            · intro h
              simp [pbInit, pbR1, pbR2] at h
            · intro h
              first
              | simp +decide [stageTags, enabledStages] at h
              | (cases ev <;> simp +decide [stageTags, enabledStages] at h)
              | (cases ug <;> cases ev <;> simp +decide [stageTags, enabledStages] at h)
          · intro h
            simp [pbInit, pbR1, pbR2] at h
          · intro h
            rw [hx] at h
            simp at h
          · intro h
            rcases h with h | h
            · rw [hgen] at h
              exact Option.noConfusion h
            · rw [hgen] at h
              rw [Option.some_inj] at h
              exact absurd h hre
          · intro resp2 h1 h2 h3
            rw [hgen] at h1
            rw [Option.some_inj] at h1
            subst h1
            rcases h3 with h3 | h3
            · rw [hex] at h3
              exact Option.noConfusion h3
            · rw [hex] at h3
              rw [Option.some_inj] at h3
              exact absurd h3 hce
        · subst hev
          rw [hpb]
          refine ⟨?_, ?_, ?_, ?_, ?_, ?_, fun _ _ _ _ _ => ⟨rfl, rfl⟩⟩
          · first
            | rfl
            | (cases ev <;> rfl)
            | (cases ug <;> cases ev <;> rfl)
          · constructor
            · intro h
              simp [pbInit, pbR1, pbR2] at h
            · intro h
              first
              | simp +decide [stageTags, enabledStages] at h
              | (cases ev <;> simp +decide [stageTags, enabledStages] at h)
              | (cases ug <;> cases ev <;> simp +decide [stageTags, enabledStages] at h)
          · intro h
            simp [pbInit, pbR1, pbR2] at h
          · intro h
            rw [hx] at h
            simp at h
          · intro h
            rcases h with h | h
            · rw [hgen] at h
              exact Option.noConfusion h
            · rw [hgen] at h
              rw [Option.some_inj] at h
              exact absurd h hre
          · intro resp2 h1 h2 h3
            rw [hgen] at h1
            rw [Option.some_inj] at h1
            subst h1
            rcases h3 with h3 | h3
            · rw [hex] at h3
              exact Option.noConfusion h3
            · rw [hex] at h3
              rw [Option.some_inj] at h3
              exact absurd h3 hce
        · subst hev
          rw [hpb]
          refine ⟨?_, Iff.intro (fun _ => rfl) (fun _ => rfl),
            fun _ => ⟨rfl, ?_, rfl, fun _ => rfl⟩, ?_, ?_, ?_, ?_⟩
          · first
            | rfl
            | (cases ev <;> rfl)
            | (cases ug <;> cases ev <;> rfl)
          · first
            | exact fun _ => rfl
            | exact fun h => Bool.noConfusion h
          · intro h
            rw [hx] at h
            simp at h
          · intro h
            rcases h with h | h
            · rw [hgen] at h
              exact Option.noConfusion h
            · rw [hgen] at h
              rw [Option.some_inj] at h
              exact absurd h hre
          · intro resp2 h1 h2 h3
            rw [hgen] at h1
            rw [Option.some_inj] at h1
            subst h1
            rcases h3 with h3 | h3
            · rw [hex] at h3
              exact Option.noConfusion h3
            · rw [hex] at h3
              rw [Option.some_inj] at h3
              exact absurd h3 hce
          · intro hev2 succ2 ff2 hint2 hcond2
            rw [hint] at hint2
            rw [Except.ok.injEq, Prod.mk.injEq] at hint2
            obtain ⟨h5, h6⟩ := hint2
            subst h5
            subst h6
            exact Bool.noConfusion (hcond2.symm.trans hcond)
    · subst hug
      subst hrg
      subst htg
      rcases hcase with ⟨-, hpb⟩ | ⟨-, hpb⟩ | ⟨hgen, -, hpb⟩ |
        ⟨-, ⟨resp, hgen, hre⟩, -, hpb⟩ | ⟨⟨resp, hgen, hre, hexf⟩, -, hpb⟩ |
        ⟨⟨resp, code, hgen, hre, hex, hce⟩, hfin⟩
      · rw [hpb]
        refine ⟨?_, ?_, ?_, ?_, fun _ => ⟨rfl, rfl⟩, fun _ _ _ _ => ⟨rfl, rfl⟩,
          fun _ _ _ _ _ => ⟨rfl, rfl⟩⟩
        · first
          | rfl
          | (cases ev <;> rfl)
          | (cases ug <;> cases ev <;> rfl)
        · constructor
          · intro h
            simp [pbInit, pbR1, pbR2] at h
          · intro h
            first
            | simp +decide [stageTags, enabledStages] at h
            | (cases ev <;> simp +decide [stageTags, enabledStages] at h)
            | (cases ug <;> cases ev <;> simp +decide [stageTags, enabledStages] at h)
        · intro h
          simp [pbInit, pbR1, pbR2] at h
        · intro h
          rw [hx] at h
          simp at h
      · rw [hpb]
        refine ⟨?_, ?_, ?_, ?_, fun _ => ⟨rfl, rfl⟩, fun _ _ _ _ => ⟨rfl, rfl⟩,
          fun _ _ _ _ _ => ⟨rfl, rfl⟩⟩
        · first
          | rfl
          | (cases ev <;> rfl)
          | (cases ug <;> cases ev <;> rfl)
        · constructor
          · intro h
            simp [pbInit, pbR1, pbR2] at h
          · intro h
            first
            | simp +decide [stageTags, enabledStages] at h
            | (cases ev <;> simp +decide [stageTags, enabledStages] at h)
            | (cases ug <;> cases ev <;> simp +decide [stageTags, enabledStages] at h)
        · intro h
          simp [pbInit, pbR1, pbR2] at h
        · intro h
          rw [hx] at h
          simp at h
      · rw [hpb]
        refine ⟨?_, ?_, ?_, ?_, fun _ => ⟨rfl, rfl⟩, fun _ _ _ _ => ⟨rfl, rfl⟩,
          fun _ _ _ _ _ => ⟨rfl, rfl⟩⟩
        · first
          | rfl
          | (cases ev <;> rfl)
          | (cases ug <;> cases ev <;> rfl)
        · constructor
          · intro h
            simp [pbInit, pbR1, pbR2] at h
          · intro h
            first
            | simp +decide [stageTags, enabledStages] at h
            | (cases ev <;> simp +decide [stageTags, enabledStages] at h)
            | (cases ug <;> cases ev <;> simp +decide [stageTags, enabledStages] at h)
        · intro h
          simp [pbInit, pbR1, pbR2] at h
        · intro h
          rw [hx] at h
          simp at h
      · rw [hpb]
        refine ⟨?_, ?_, ?_, ?_, fun _ => ⟨rfl, rfl⟩, fun _ _ _ _ => ⟨rfl, rfl⟩,
          fun _ _ _ _ _ => ⟨rfl, rfl⟩⟩
        · first
          | rfl
          | (cases ev <;> rfl)
          | (cases ug <;> cases ev <;> rfl)
        · constructor
          · intro h
            simp [pbInit, pbR1, pbR2] at h
          · intro h
            first
            | simp +decide [stageTags, enabledStages] at h
            | (cases ev <;> simp +decide [stageTags, enabledStages] at h)
            | (cases ug <;> cases ev <;> simp +decide [stageTags, enabledStages] at h)
        · intro h
          simp [pbInit, pbR1, pbR2] at h
        · intro h
          rw [hx] at h
          simp at h
      · rw [hpb]
        refine ⟨?_, ?_, ?_, ?_, fun _ => ⟨rfl, rfl⟩, fun _ _ _ _ => ⟨rfl, rfl⟩,
          fun _ _ _ _ _ => ⟨rfl, rfl⟩⟩
        · first
          | rfl
          | (cases ev <;> rfl)
          | (cases ug <;> cases ev <;> rfl)
        · constructor
          · intro h
            simp [pbInit, pbR1, pbR2] at h
          · intro h
            first
            | simp +decide [stageTags, enabledStages] at h
            | (cases ev <;> simp +decide [stageTags, enabledStages] at h)
            | (cases ug <;> cases ev <;> simp +decide [stageTags, enabledStages] at h)
        · intro h
          simp [pbInit, pbR1, pbR2] at h
        · intro h
          rw [hx] at h
          simp at h
      · rcases hfin with ⟨-, -, hpb⟩ | ⟨hev, -, hpb⟩ | ⟨hev, -, hpb⟩ |
          ⟨hev, ⟨succ, ff, hint, hcond⟩, -, hpb⟩ |
          ⟨hev, ⟨succ, ff, hint, hcond⟩, er, hef, -, hpb⟩
        · rw [hpb]
          refine ⟨?_, ?_, ?_, ?_, fun _ => ⟨rfl, rfl⟩, fun _ _ _ _ => ⟨rfl, rfl⟩,
            fun _ _ _ _ _ => ⟨rfl, rfl⟩⟩
          · first
            | rfl
            | (cases ev <;> rfl)
            | (cases ug <;> cases ev <;> rfl)
          · constructor
            · intro h
              simp [pbInit, pbR1, pbR2] at h
            · intro h
              first
              | simp +decide [stageTags, enabledStages] at h
              | (cases ev <;> simp +decide [stageTags, enabledStages] at h)
              | (cases ug <;> cases ev <;> simp +decide [stageTags, enabledStages] at h)
          · intro h
            simp [pbInit, pbR1, pbR2] at h
          · intro h
            rw [hx] at h
            simp at h
        · subst hev
          rw [hpb]
          refine ⟨?_, Iff.intro (fun _ => rfl) (fun _ => rfl),
            fun _ => ⟨rfl, ?_, rfl, fun h => Bool.noConfusion h⟩, ?_, ?_, ?_,
            fun h => Bool.noConfusion h⟩
          · first
            | rfl
            | (cases ev <;> rfl)
            | (cases ug <;> cases ev <;> rfl)
          · first
            | exact fun _ => rfl
            | exact fun h => Bool.noConfusion h
          · intro h
            rw [hx] at h
            simp at h
          · intro h
            rcases h with h | h
            · rw [hgen] at h
              exact Option.noConfusion h
            · rw [hgen] at h
              rw [Option.some_inj] at h
              exact absurd h hre
          · intro resp2 h1 h2 h3
            rw [hgen] at h1
            rw [Option.some_inj] at h1
            subst h1
            rcases h3 with h3 | h3
            · rw [hex] at h3
              exact Option.noConfusion h3
            · rw [hex] at h3
              rw [Option.some_inj] at h3
              exact absurd h3 hce
        · subst hev
          rw [hpb]
          refine ⟨?_, ?_, ?_, ?_, ?_, ?_, fun _ _ _ _ _ => ⟨rfl, rfl⟩⟩
          · first
            | rfl
            | (cases ev <;> rfl)
            | (cases ug <;> cases ev <;> rfl)
          · constructor
            · intro h
              simp [pbInit, pbR1, pbR2] at h
            · intro h
              first
              | simp +decide [stageTags, enabledStages] at h
              | (cases ev <;> simp +decide [stageTags, enabledStages] at h)
              | (cases ug <;> cases ev <;> simp +decide [stageTags, enabledStages] at h)
          · intro h
            simp [pbInit, pbR1, pbR2] at h
          · intro h
            rw [hx] at h
            simp at h
          · intro h
            rcases h with h | h
            · rw [hgen] at h
              exact Option.noConfusion h
            · rw [hgen] at h
              rw [Option.some_inj] at h
              exact absurd h hre
          · intro resp2 h1 h2 h3
            rw [hgen] at h1
            rw [Option.some_inj] at h1
            subst h1
            rcases h3 with h3 | h3
            · rw [hex] at h3
              exact Option.noConfusion h3
            · rw [hex] at h3
              rw [Option.some_inj] at h3
              exact absurd h3 hce
        · subst hev
          rw [hpb]
          refine ⟨?_, ?_, ?_, ?_, ?_, ?_, fun _ _ _ _ _ => ⟨rfl, rfl⟩⟩
          · first
            | rfl
            | (cases ev <;> rfl)
            | (cases ug <;> cases ev <;> rfl)
          · constructor
            · intro h
              simp [pbInit, pbR1, pbR2] at h
            · intro h
              first
              | simp +decide [stageTags, enabledStages] at h
              | (cases ev <;> simp +decide [stageTags, enabledStages] at h)
              | (cases ug <;> cases ev <;> simp +decide [stageTags, enabledStages] at h)
          · intro h
            simp [pbInit, pbR1, pbR2] at h
          · intro h
            rw [hx] at h
            simp at h
          · intro h
            rcases h with h | h
            · rw [hgen] at h
              exact Option.noConfusion h
            · rw [hgen] at h
              rw [Option.some_inj] at h
              exact absurd h hre
          · intro resp2 h1 h2 h3
            rw [hgen] at h1
            rw [Option.some_inj] at h1
            subst h1
            rcases h3 with h3 | h3
            · rw [hex] at h3
              exact Option.noConfusion h3
            · rw [hex] at h3
              rw [Option.some_inj] at h3
              exact absurd h3 hce
        · subst hev
          rw [hpb]
          refine ⟨?_, Iff.intro (fun _ => rfl) (fun _ => rfl),
            fun _ => ⟨rfl, ?_, rfl, fun _ => rfl⟩, ?_, ?_, ?_, ?_⟩
          · first
            | rfl
            | (cases ev <;> rfl)
            | (cases ug <;> cases ev <;> rfl)
          · first
            | exact fun _ => rfl
            | exact fun h => Bool.noConfusion h
          · intro h
            rw [hx] at h
            simp at h
          · intro h
            rcases h with h | h
            · rw [hgen] at h
              exact Option.noConfusion h
            · rw [hgen] at h
              rw [Option.some_inj] at h
              exact absurd h hre
          · intro resp2 h1 h2 h3
            rw [hgen] at h1
            rw [Option.some_inj] at h1
            subst h1
            rcases h3 with h3 | h3
            · rw [hex] at h3
              exact Option.noConfusion h3
            · rw [hex] at h3
              rw [Option.some_inj] at h3
              exact absurd h3 hce
          · intro hev2 succ2 ff2 hint2 hcond2
            rw [hint] at hint2
            rw [Except.ok.injEq, Prod.mk.injEq] at hint2
            obtain ⟨h5, h6⟩ := hint2
            subst h5
            subst h6
            exact Bool.noConfusion (hcond2.symm.trans hcond)

/-- An all-succeeding oracle whose extraction nevertheless comes back
empty (`get_complete_extraction` returned `None`). -/
def envC1 : PBEnv :=
  { extraction := .ok none, buildGraph := .ok (), saveGraph := true,
    extractGraphInfo := .ok "gi", writeGraphText := .ok (),
    buildMessages := .ok (), buildText := .ok (), writePrompt := .ok (),
    llmInit := .ok (), generate := some "```java x ```",
    writeResponse := .ok (), writeCode := .ok (),
    integrate := .ok (true, some "fixed.java"), evalFix := .ok [],
    writeAllResults := .ok () }

/-- Witness for C1: with an empty extraction, `process_bug` returns at
once with the initial (failed) result and an empty trace. -/
theorem C1_witness : envC1.extraction = .ok none ∧
    process_bug "b1" envC1 false true "openai" = (pbInit "b1", []) :=
  ⟨rfl, (C1_process_bug "b1" envC1 false true "openai").2.2.2.1 rfl⟩

/-- C3: any exception escaping the body of `process_bug` is caught: the
function returns the partial result dictionary as it stood, that result
has `success = False`, and the `main` loop still records one result per
bug id, so a failure on one bug never aborts the run. -/
theorem C3_process_bug (bug : String) (env : PBEnv) (ug ev : Bool) (mt : String)
    (e : PyExc) (r : PBResult) (t : List Ev)
    (h : process_bug_body bug env ug ev mt = .error (e, r, t)) :
    process_bug bug env ug ev mt = (r, t) ∧ r.success = false ∧
    (∀ bugs : List (String × PBEnv),
      (mainLoop bugs ug ev mt).1.map Prod.fst = bugs.map Prod.fst) := by
  refine ⟨by simp [process_bug, h], ?_, ?_⟩
  · rcases process_bug_spec bug env ug ev mt with
      ⟨-, hb, -⟩ | ⟨-, ⟨e2, hb⟩, -⟩ | ⟨-, -, ⟨e2, hb⟩, -⟩ |
      ⟨-, rg, tg, hshape, hcase⟩
    · rw [h] at hb
      exact Except.noConfusion hb
    · rw [h] at hb
      simp only [Except.error.injEq, Prod.mk.injEq] at hb
      obtain ⟨-, h2, -⟩ := hb
      rw [h2]
      rfl
    · rw [h] at hb
      simp only [Except.error.injEq, Prod.mk.injEq] at hb
      obtain ⟨-, h2, -⟩ := hb
      rw [h2]
      rfl
    · rcases hshape with ⟨-, hrg, htg⟩ | ⟨-, hrg, htg⟩ <;> subst hrg <;> subst htg
      · rcases hcase with ⟨⟨e2, hb⟩, -⟩ | ⟨⟨e2, hb⟩, -⟩ | ⟨-, hb, -⟩ |
          ⟨-, -, ⟨e2, hb⟩, -⟩ | ⟨-, hb, -⟩ | ⟨-, hfin⟩
        · rw [h] at hb
          simp only [Except.error.injEq, Prod.mk.injEq] at hb
          obtain ⟨-, h2, -⟩ := hb
          rw [h2]
          rfl
        · rw [h] at hb
          simp only [Except.error.injEq, Prod.mk.injEq] at hb
          obtain ⟨-, h2, -⟩ := hb
          rw [h2]
          rfl
        · rw [h] at hb
          exact Except.noConfusion hb
        · rw [h] at hb
          simp only [Except.error.injEq, Prod.mk.injEq] at hb
          obtain ⟨-, h2, -⟩ := hb
          rw [h2]
          rfl
        · rw [h] at hb
          exact Except.noConfusion hb
        · rcases hfin with ⟨-, ⟨e2, hb⟩, -⟩ | ⟨-, hb, -⟩ | ⟨-, ⟨e2, hb⟩, -⟩ |
            ⟨-, -, hb, -⟩ | ⟨-, -, er, -, hb, -⟩
          · rw [h] at hb
            simp only [Except.error.injEq, Prod.mk.injEq] at hb
            obtain ⟨-, h2, -⟩ := hb
            rw [h2]
            rfl
          · rw [h] at hb
            exact Except.noConfusion hb
          · rw [h] at hb
            simp only [Except.error.injEq, Prod.mk.injEq] at hb
            obtain ⟨-, h2, -⟩ := hb
            rw [h2]
            rfl
          · rw [h] at hb
            exact Except.noConfusion hb
          · rw [h] at hb
            exact Except.noConfusion hb
      · rcases hcase with ⟨⟨e2, hb⟩, -⟩ | ⟨⟨e2, hb⟩, -⟩ | ⟨-, hb, -⟩ |
          ⟨-, -, ⟨e2, hb⟩, -⟩ | ⟨-, hb, -⟩ | ⟨-, hfin⟩
        · rw [h] at hb
          simp only [Except.error.injEq, Prod.mk.injEq] at hb
          obtain ⟨-, h2, -⟩ := hb
          rw [h2]
          rfl
        · rw [h] at hb
          simp only [Except.error.injEq, Prod.mk.injEq] at hb
          obtain ⟨-, h2, -⟩ := hb
          rw [h2]
          rfl
        · rw [h] at hb
          exact Except.noConfusion hb
        · rw [h] at hb
          simp only [Except.error.injEq, Prod.mk.injEq] at hb
          obtain ⟨-, h2, -⟩ := hb
          rw [h2]
          rfl
        · rw [h] at hb
          exact Except.noConfusion hb
        · rcases hfin with ⟨-, ⟨e2, hb⟩, -⟩ | ⟨-, hb, -⟩ | ⟨-, ⟨e2, hb⟩, -⟩ |
            ⟨-, -, hb, -⟩ | ⟨-, -, er, -, hb, -⟩
          · rw [h] at hb
            simp only [Except.error.injEq, Prod.mk.injEq] at hb
            obtain ⟨-, h2, -⟩ := hb
            rw [h2]
            rfl
          · rw [h] at hb
            exact Except.noConfusion hb
          · rw [h] at hb
            simp only [Except.error.injEq, Prod.mk.injEq] at hb
            obtain ⟨-, h2, -⟩ := hb
            rw [h2]
            rfl
          · rw [h] at hb
            exact Except.noConfusion hb
          · rw [h] at hb
            exact Except.noConfusion hb
  · intro bugs
    induction bugs with
    | nil => rfl
    | cons hd tl ih =>
      obtain ⟨b2, env2⟩ := hd
      simp [mainLoop, ih]

/-- The oracle of `envC1` with the extraction step raising instead. -/
def envC3 : PBEnv := { envC1 with extraction := .error .ioError }

/-- Witness for C3 at a concrete raising oracle. -/
theorem C3_witness :
    process_bug_body "b1" envC3 false true "openai" =
      .error (.ioError, pbInit "b1", []) ∧
    (process_bug "b1" envC3 false true "openai" = (pbInit "b1", []) ∧
      (pbInit "b1").success = false ∧
      (∀ bugs : List (String × PBEnv),
        (mainLoop bugs false true "openai").1.map Prod.fst = bugs.map Prod.fst)) :=
  ⟨rfl, C3_process_bug "b1" envC3 false true "openai" .ioError (pbInit "b1") [] rfl⟩

/-- No `process_bug` trace mentions the `all_results.json` dump (that file
is written by the `main` loop, outside `process_bug`). -/
theorem process_bug_no_allResults (bug : String) (env : PBEnv) (ug ev : Bool)
    (mt : String) :
    Ev.wrote ArtifactPath.allResults ∉ (process_bug bug env ug ev mt).2 := by
  rcases process_bug_spec bug env ug ev mt with
    ⟨-, -, hpb⟩ | ⟨-, -, hpb⟩ | ⟨-, -, -, hpb⟩ |
    ⟨-, rg, tg, hshape, hcase⟩
  · rw [hpb]
    simp
  · rw [hpb]
    simp
  · rw [hpb]
    simp
  · rcases hshape with ⟨-, hrg, htg⟩ | ⟨-, hrg, htg⟩ <;> subst hrg <;> subst htg
    · rcases hcase with ⟨-, hpb⟩ | ⟨-, hpb⟩ | ⟨-, -, hpb⟩ |
        ⟨-, -, -, hpb⟩ | ⟨-, -, hpb⟩ | ⟨-, hfin⟩
      · rw [hpb]
        simp
      · rw [hpb]
        simp
      · rw [hpb]
        simp
      · rw [hpb]
        simp
      · rw [hpb]
        simp
      · rcases hfin with ⟨-, -, hpb⟩ | ⟨-, -, hpb⟩ | ⟨-, -, hpb⟩ |
          ⟨-, -, -, hpb⟩ | ⟨-, -, er, -, -, hpb⟩
        · rw [hpb]
          simp
        · rw [hpb]
          simp
        · rw [hpb]
          simp
        · rw [hpb]
          simp
        · rw [hpb]
          simp
    · rcases hcase with ⟨-, hpb⟩ | ⟨-, hpb⟩ | ⟨-, -, hpb⟩ |
        ⟨-, -, -, hpb⟩ | ⟨-, -, hpb⟩ | ⟨-, hfin⟩
      · rw [hpb]
        simp
      · rw [hpb]
        simp
      · rw [hpb]
        simp
      · rw [hpb]
        simp
      · rw [hpb]
        simp
      · rcases hfin with ⟨-, -, hpb⟩ | ⟨-, -, hpb⟩ | ⟨-, -, hpb⟩ |
          ⟨-, -, -, hpb⟩ | ⟨-, -, er, -, -, hpb⟩
        · rw [hpb]
          simp
        · rw [hpb]
          simp
        · rw [hpb]
          simp
        · rw [hpb]
          simp
        · rw [hpb]
          simp

/-- With succeeding dumps, the `main` loop writes `all_results.json` once
per processed bug. -/
theorem mainLoop_count (ug ev : Bool) (mt : String) (bugs : List (String × PBEnv))
    (hb : ∀ b ∈ bugs, b.2.writeAllResults = Except.ok ()) :
    (mainLoop bugs ug ev mt).2.count (Ev.wrote ArtifactPath.allResults) =
      bugs.length := by
  induction bugs with
  | nil => rfl
  | cons hd tl ih =>
    obtain ⟨b2, env2⟩ := hd
    have h1 := hb (b2, env2) (List.mem_cons_self _ _)
    simp only at h1
    have h0 : ((process_bug b2 env2 ug ev mt).2).count
        (Ev.wrote ArtifactPath.allResults) = 0 :=
      List.count_eq_zero.2 (process_bug_no_allResults b2 env2 ug ev mt)
    have h2 := ih (fun b hb2 => hb b (List.mem_cons_of_mem _ hb2))
    simp [mainLoop, h1, List.count_append, h0, h2]

/-- C9 (amended): in the absence of file-write errors, every bug that
reaches LLM inference already has its prompt JSON on disk; the raw
response text is written iff inference ran and the response is truthy; the
extracted code is written iff inference ran and code extraction produced a
truthy string; and the `main` loop rewrites `all_results.json` once after
every processed bug. -/
theorem C9_amended (bug : String) (env : PBEnv) (ug ev : Bool) (mt : String)
    (hwp : env.writePrompt = Except.ok ())
    (hwr : env.writeResponse = Except.ok ())
    (hwc : env.writeCode = Except.ok ()) :
    ((Ev.llmCalled ∈ (process_bug bug env ug ev mt).2 →
        Ev.wrote (ArtifactPath.promptJson bug) ∈ (process_bug bug env ug ev mt).2) ∧
      (Ev.wrote (ArtifactPath.responseTxt bug) ∈ (process_bug bug env ug ev mt).2 ↔
        (Ev.llmCalled ∈ (process_bug bug env ug ev mt).2 ∧
          pyTruthy env.generate = true)) ∧
      (Ev.wrote (ArtifactPath.codeJava bug) ∈ (process_bug bug env ug ev mt).2 ↔
        (Ev.llmCalled ∈ (process_bug bug env ug ev mt).2 ∧
          extractedTruthy env = true))) ∧
    (∀ bugs : List (String × PBEnv),
      (∀ b ∈ bugs, b.2.writeAllResults = Except.ok ()) →
      (mainLoop bugs ug ev mt).2.count (Ev.wrote ArtifactPath.allResults) =
        bugs.length) := by
  refine ⟨?_, fun bugs hb => mainLoop_count ug ev mt bugs hb⟩
  rcases process_bug_spec bug env ug ev mt with
    ⟨-, -, hpb⟩ | ⟨-, -, hpb⟩ | ⟨-, -, -, hpb⟩ |
    ⟨-, rg, tg, hshape, hcase⟩
  · rw [hpb]
    exact ⟨fun h => by simp at h, by simp, by simp⟩
  · rw [hpb]
    exact ⟨fun h => by simp at h, by simp, by simp⟩
  · rw [hpb]
    exact ⟨fun h => by simp at h, by simp, by simp⟩
  · rcases hshape with ⟨-, hrg, htg⟩ | ⟨-, hrg, htg⟩ <;> subst hrg <;> subst htg
    · rcases hcase with ⟨-, hpb⟩ | ⟨-, hpb⟩ | ⟨hgen, -, hpb⟩ |
        ⟨⟨e2, hwrE⟩, -, -, -⟩ | ⟨⟨resp, hgen, hre, hexf⟩, -, hpb⟩ |
        ⟨⟨resp, code, hgen, hre, hex, hce⟩, hfin⟩
      · rw [hpb]
        exact ⟨fun h => by simp at h, by simp, by simp⟩
      · rw [hpb]
        exact ⟨fun h => by simp at h, by simp, by simp⟩
      · rw [hpb]
        rcases hgen with hgen | hgen <;>
          exact ⟨fun _ => by simp, by simp [hgen, pyTruthy],
            by simp [extractedTruthy, hgen]⟩
      · rw [hwr] at hwrE
        exact Except.noConfusion hwrE
      · rw [hpb]
        rcases hexf with hexf | hexf <;>
          exact ⟨fun _ => by simp, by simp [hgen, pyTruthy, hre],
            by simp [extractedTruthy, hgen, hexf]⟩
      · rcases hfin with ⟨⟨e2, hwcE⟩, -, -⟩ | ⟨-, -, hpb⟩ | ⟨-, -, hpb⟩ |
          ⟨-, -, -, hpb⟩ | ⟨-, -, er, -, -, hpb⟩
        · rw [hwc] at hwcE
          exact Except.noConfusion hwcE
        · rw [hpb]
          exact ⟨fun _ => by simp, by simp [hgen, pyTruthy, hre],
            by simp [extractedTruthy, hgen, hex, hre, hce]⟩
        · rw [hpb]
          exact ⟨fun _ => by simp, by simp [hgen, pyTruthy, hre],
            by simp [extractedTruthy, hgen, hex, hre, hce]⟩
        · rw [hpb]
          exact ⟨fun _ => by simp, by simp [hgen, pyTruthy, hre],
            by simp [extractedTruthy, hgen, hex, hre, hce]⟩
        · rw [hpb]
          exact ⟨fun _ => by simp, by simp [hgen, pyTruthy, hre],
            by simp [extractedTruthy, hgen, hex, hre, hce]⟩
    · rcases hcase with ⟨-, hpb⟩ | ⟨-, hpb⟩ | ⟨hgen, -, hpb⟩ |
        ⟨⟨e2, hwrE⟩, -, -, -⟩ | ⟨⟨resp, hgen, hre, hexf⟩, -, hpb⟩ |
        ⟨⟨resp, code, hgen, hre, hex, hce⟩, hfin⟩
      · rw [hpb]
        exact ⟨fun h => by simp at h, by simp, by simp⟩
      · rw [hpb]
        exact ⟨fun h => by simp at h, by simp, by simp⟩
      · rw [hpb]
        rcases hgen with hgen | hgen <;>
          exact ⟨fun _ => by simp, by simp [hgen, pyTruthy],
            by simp [extractedTruthy, hgen]⟩
      · rw [hwr] at hwrE
        exact Except.noConfusion hwrE
      · rw [hpb]
        rcases hexf with hexf | hexf <;>
          exact ⟨fun _ => by simp, by simp [hgen, pyTruthy, hre],
            by simp [extractedTruthy, hgen, hexf]⟩
      · rcases hfin with ⟨⟨e2, hwcE⟩, -, -⟩ | ⟨-, -, hpb⟩ | ⟨-, -, hpb⟩ |
          ⟨-, -, -, hpb⟩ | ⟨-, -, er, -, -, hpb⟩
        · rw [hwc] at hwcE
          exact Except.noConfusion hwcE
        · rw [hpb]
          exact ⟨fun _ => by simp, by simp [hgen, pyTruthy, hre],
            by simp [extractedTruthy, hgen, hex, hre, hce]⟩
        · rw [hpb]
          exact ⟨fun _ => by simp, by simp [hgen, pyTruthy, hre],
            by simp [extractedTruthy, hgen, hex, hre, hce]⟩
        · rw [hpb]
          exact ⟨fun _ => by simp, by simp [hgen, pyTruthy, hre],
            by simp [extractedTruthy, hgen, hex, hre, hce]⟩
        · rw [hpb]
          exact ⟨fun _ => by simp, by simp [hgen, pyTruthy, hre],
            by simp [extractedTruthy, hgen, hex, hre, hce]⟩

/-- The oracle of `envC1` with a successful extraction but an empty LLM
response. -/
def envC9 : PBEnv := { envC1 with extraction := .ok (some ()), generate := some "" }

/-- C9 counterexample: a bug that reaches LLM inference (the generate call
happens and the prompt JSON is written) but whose response is empty gets
neither a `responses/{bug_id}_response.txt` nor a
`generated_code/{bug_id}_code.java` artifact, contradicting the claim. -/
theorem C9_counterexample :
    Ev.llmCalled ∈ (process_bug "b1" envC9 false true "openai").2 ∧
    Ev.wrote (ArtifactPath.promptJson "b1") ∈
      (process_bug "b1" envC9 false true "openai").2 ∧
    Ev.wrote (ArtifactPath.responseTxt "b1") ∉
      (process_bug "b1" envC9 false true "openai").2 ∧
    Ev.wrote (ArtifactPath.codeJava "b1") ∉
      (process_bug "b1" envC9 false true "openai").2 := by
  refine ⟨?_, ?_, ?_, ?_⟩ <;> decide

/-- Witness for C9 (amended) at the concrete oracle `envC9` (all file
writes succeed there). -/
theorem C9_witness : envC9.writePrompt = Except.ok () ∧
    (((Ev.llmCalled ∈ (process_bug "b1" envC9 false true "openai").2 →
        Ev.wrote (ArtifactPath.promptJson "b1") ∈
          (process_bug "b1" envC9 false true "openai").2) ∧
      (Ev.wrote (ArtifactPath.responseTxt "b1") ∈
          (process_bug "b1" envC9 false true "openai").2 ↔
        (Ev.llmCalled ∈ (process_bug "b1" envC9 false true "openai").2 ∧
          pyTruthy envC9.generate = true)) ∧
      (Ev.wrote (ArtifactPath.codeJava "b1") ∈
          (process_bug "b1" envC9 false true "openai").2 ↔
        (Ev.llmCalled ∈ (process_bug "b1" envC9 false true "openai").2 ∧
          extractedTruthy envC9 = true))) ∧
    (∀ bugs : List (String × PBEnv),
      (∀ b ∈ bugs, b.2.writeAllResults = Except.ok ()) →
      (mainLoop bugs false true "openai").2.count (Ev.wrote ArtifactPath.allResults) =
        bugs.length)) :=
  ⟨rfl, C9_amended "b1" envC9 false true "openai" rfl rfl rfl⟩
